import Mathlib

/-!
# Meal-planner scheduling and replacement engine: a shallow embedding

This file embeds the meal-plan scheduling/replacement engine of the
repository in Lean 4 and proves the specification claims about it.

Conventions of the embedding:
* Calendar dates (ISO `YYYY-MM-DD` strings in the source) are modelled as
  integers counting days; `addDaysISO start day` becomes `start + day` and
  `diffDaysISO a b` becomes `a - b`.  This is faithful because the source
  only ever compares dates and takes whole-day differences.
* JavaScript `Set` objects are modelled as lists used through `contains`;
  only membership is ever observed in the source.
* `Math.random()` draws are modelled by an injected stream `rnd : Nat → Nat`
  indexed by pick-call count, and `shuffleNumbers` by an injected function
  `shuf`; theorems that need it assume `shuf l` is a permutation of `l`.
* `String.prototype.localeCompare` is modelled by an injected boolean
  comparison `nameLe x y` standing for `x.localeCompare(y) <= 0`.
* Numeric scores (floats in JavaScript) are modelled in `ℚ` with the exact
  literals of the source (`0.15 = 3/20`, `0.35 = 7/20`, `-999`).
* JavaScript's stable `Array.prototype.sort` is modelled by a stable
  insertion sort `sortByLe`.
-/

attribute [local semireducible] Rat.add Rat.mul

/-- Meal type of a recipe or slot (`"breakfast" | "lunch" | "dinner"`). -/
inductive MealType where
  | breakfast
  | lunch
  | dinner
deriving DecidableEq, Repr

/-- A user preference for a recipe (`"favorite" | "dislike"`). -/
inductive Pref where
  | favorite
  | dislike
deriving DecidableEq, Repr

/-- The fields of a recipe read by the scheduling engine (`type Recipe`).
`base_servings` and `steps` are never read by the functions embedded here
and are omitted. -/
structure Recipe where
  id : Nat
  name : String
  meal_type : MealType
deriving DecidableEq, Repr

/-- A meal-plan slot (`type Slot`).  `id` models the row UUID, `date` is a
day number, `servings = 0` marks a leftover slot. -/
structure Slot where
  id : Nat
  date : Int
  meal_type : MealType
  recipe_id : Option Nat
  servings : Nat
deriving DecidableEq, Repr

/-- A freshly generated slot before insertion (`Omit<Slot, "id">`). -/
structure NewSlot where
  date : Int
  meal_type : MealType
  recipe_id : Option Nat
  servings : Nat
deriving DecidableEq, Repr

/-- Cooldown queue entry (`type UseEntry = { dayIndex, recipeId }`). -/
structure UseEntry where
  dayIndex : Int
  recipeId : Nat
deriving DecidableEq, Repr

/-- A persisted history row used to seed cooldown queues
(`type SlotHistoryRow`); the history query only returns rows with a
non-null `recipe_id`, so the field is a plain `Nat` here. -/
structure SlotHistoryRow where
  date : Int
  meal_type : MealType
  recipe_id : Nat
  servings : Nat
deriving DecidableEq, Repr

/-- The read-only snapshot of React state consulted by the eligibility,
scoring and picking functions. -/
structure Env where
  recipes : List Recipe
  recipeIngs : List (Nat × Nat)
  pantryIds : List Nat
  prefs : List (Nat × Pref)
  blockedIngredientIds : List Nat
  desiredIds : List Nat
  useIngredientIdsHard : Bool
  preferPantry : Bool
  nameLe : String → String → Bool
  rnd : Nat → Nat

/-- Stable insertion of `x` into `l`, placing `x` before the first element
`y` with `le x y`.  Together with `sortByLe` this models JavaScript's
stable `Array.prototype.sort(cmp)` with `le a b ↔ cmp(a,b) <= 0`. -/
def insertLe {α : Type} (le : α → α → Bool) (x : α) : List α → List α
  | [] => [x]
  | y :: ys => if le x y then x :: y :: ys else y :: insertLe le x ys

/-- Stable insertion sort; models `Array.prototype.sort(cmp)`. -/
def sortByLe {α : Type} (le : α → α → Bool) : List α → List α
  | [] => []
  | x :: xs => insertLe le x (sortByLe le xs)

/-- `recipeIngSetByRecipe.get(recipeId)`: the set of distinct ingredient
ids of a recipe, derived by grouping the `recipe_ingredients` rows. -/
def Env.ingSet (env : Env) (recipeId : Nat) : List Nat :=
  ((env.recipeIngs.filter (fun p => p.1 == recipeId)).map (fun p => p.2)).dedup

/-- `dislikedIds`: recipe ids whose preference row is `dislike`. -/
def Env.dislikedIds (env : Env) : List Nat :=
  (env.prefs.filter (fun p => p.2 == Pref.dislike)).map (fun p => p.1)

/-- `matchRatio(recipeId)`: fraction of the recipe's distinct ingredients
present in the pantry; `0` when the recipe has no ingredients.  The
JavaScript float division is modelled exactly in `ℚ` via `mkRat`. -/
def matchRatio (env : Env) (recipeId : Nat) : ℚ :=
  if (env.ingSet recipeId).length = 0 then 0
  else mkRat (((env.ingSet recipeId).filter (fun i => env.pantryIds.contains i)).length : Int)
    (env.ingSet recipeId).length

/-- `bonusFromPrefs(recipeId)`: `+0.15` for a favorite, `−999` for a
dislike, `0` otherwise. -/
def bonusFromPrefs (env : Env) (recipeId : Nat) : ℚ :=
  match env.prefs.find? (fun p => p.1 == recipeId) with
  | some p => match p.2 with
    | Pref.favorite => mkRat 3 20
    | Pref.dislike => mkRat (-999) 1
  | none => 0

/-- `recipeHasAllDesired(recipeId, desired)`. -/
def recipeHasAllDesired (env : Env) (recipeId : Nat) (desired : List Nat) : Bool :=
  desired.all (fun d => (env.ingSet recipeId).contains d)

/-- `desiredMatchRatio(recipeId, desired)`: fraction of the desired
ingredients present in the recipe; `0` when the desired set is empty. -/
def desiredMatchRatio (env : Env) (recipeId : Nat) (desired : List Nat) : ℚ :=
  if desired.length = 0 then 0
  else mkRat ((desired.filter (fun d => (env.ingSet recipeId).contains d)).length : Int)
    desired.length

/-- `recipeContainsBlocked(recipeId)`. -/
def recipeContainsBlocked (env : Env) (recipeId : Nat) : Bool :=
  if env.blockedIngredientIds.isEmpty then false
  else (env.ingSet recipeId).any (fun i => env.blockedIngredientIds.contains i)

/-- The composite score computed inside the sort comparators of
`pickRecipe` and `pickAlternativeRecipe`:
`(preferPantry ? matchRatio : 0) + bonusFromPrefs + (desired.size ? 0.35 × desiredMatchRatio : 0)`. -/
def score (env : Env) (r : Recipe) : ℚ :=
  Rat.add
    (Rat.add (if env.preferPantry then matchRatio env r.id else 0) (bonusFromPrefs env r.id))
    (if env.desiredIds.length ≠ 0
      then Rat.mul (mkRat 7 20) (desiredMatchRatio env r.id env.desiredIds) else 0)

/-- The sort comparator of `pickRecipe`/`pickAlternativeRecipe` as a
boolean "may come first" relation: `a` may precede `b` iff the comparator
value `sb - sa`, falling back to `localeCompare` on ties, is `≤ 0`. -/
def rankLe (env : Env) (a b : Recipe) : Bool :=
  decide (score env b < score env a)
    || (decide (score env a = score env b) && env.nameLe a.name b.name)

/-- The fully-filtered eligible set of `pickRecipe` (meal-type match, not
globally used, not disliked, not cooldown-excluded, no blocked
ingredient). -/
def fillBase1 (env : Env) (mealType : MealType) (used extraExclude : List Nat) : List Recipe :=
  ((((env.recipes.filter (fun r => r.meal_type == mealType)).filter
      (fun r => !used.contains r.id)).filter
      (fun r => !env.dislikedIds.contains r.id)).filter
      (fun r => !extraExclude.contains r.id)).filter
      (fun r => !recipeContainsBlocked env r.id)

/-- The fallback set of `pickRecipe`: the same filters with the
cooldown exclusion (`extraExclude`) dropped. -/
def fillBase2 (env : Env) (mealType : MealType) (used : List Nat) : List Recipe :=
  (((env.recipes.filter (fun r => r.meal_type == mealType)).filter
      (fun r => !used.contains r.id)).filter
      (fun r => !env.dislikedIds.contains r.id)).filter
      (fun r => !recipeContainsBlocked env r.id)

/-- The base set `pickRecipe` actually selects from, after its fallback. -/
def fillBase (env : Env) (mealType : MealType) (used extraExclude : List Nat) : List Recipe :=
  if (fillBase1 env mealType used extraExclude).isEmpty
  then fillBase2 env mealType used
  else fillBase1 env mealType used extraExclude

/-- The hard desired-ingredient restriction shared by both pickers: keep
only recipes containing all desired ingredients, but only when hard mode
is on, the desired set is non-empty and the restriction leaves at least
one candidate. -/
def hardRestrict (env : Env) (base : List Recipe) : List Recipe :=
  if env.useIngredientIdsHard && !env.desiredIds.isEmpty then
    if !((base.filter (fun r => recipeHasAllDesired env r.id env.desiredIds)).isEmpty)
    then base.filter (fun r => recipeHasAllDesired env r.id env.desiredIds)
    else base
  else base

/-- The candidate set of `pickRecipe` after the hard desired-ingredient
restriction (applied only when it leaves at least one candidate). -/
def fillCandidates (env : Env) (mealType : MealType) (used extraExclude : List Nat) : List Recipe :=
  hardRestrict env (fillBase env mealType used extraExclude)

/-- The ranked candidate list of `pickRecipe` (sorted by descending score,
ties by name). -/
def rankedFill (env : Env) (mealType : MealType) (used extraExclude : List Nat) : List Recipe :=
  sortByLe (rankLe env) (fillCandidates env mealType used extraExclude)

/-- `candidates.slice(0, Math.min(3, candidates.length))`: the top-3
window of the ranking. -/
def fillTop (env : Env) (mealType : MealType) (used extraExclude : List Nat) : List Recipe :=
  (rankedFill env mealType used extraExclude).take
    (min 3 (rankedFill env mealType used extraExclude).length)

/-- `pickRecipe(mealType, used, extraExclude)`: initial-fill selection.
The `Math.random()` draw is modelled by the argument `r`; the source picks
`top[Math.floor(Math.random() * top.length)]`, modelled as index
`r % top.length`. -/
def pickRecipe (env : Env) (mealType : MealType) (used extraExclude : List Nat) (r : Nat) : Option Nat :=
  if (fillBase env mealType used extraExclude).isEmpty then none
  else
    ((fillTop env mealType used extraExclude).get?
        (r % (fillTop env mealType used extraExclude).length)).map (fun rc => rc.id)

/-- The fully-filtered eligible set of `pickAlternativeRecipe`
(`baseAllowed`). -/
def altBase1 (env : Env) (mealType : MealType) (currentRecipeId : Nat)
    (excludeRecipeIds cooldownExclude disliked : List Nat) : List Recipe :=
  env.recipes.filter (fun r =>
    r.meal_type == mealType
      && r.id != currentRecipeId
      && !excludeRecipeIds.contains r.id
      && !disliked.contains r.id
      && !cooldownExclude.contains r.id
      && !recipeContainsBlocked env r.id)

/-- The fallback set of `pickAlternativeRecipe`: the same filters with the
cooldown exclusion dropped. -/
def altBase2 (env : Env) (mealType : MealType) (currentRecipeId : Nat)
    (excludeRecipeIds disliked : List Nat) : List Recipe :=
  ((((env.recipes.filter (fun r => r.meal_type == mealType)).filter
      (fun r => r.id != currentRecipeId)).filter
      (fun r => !excludeRecipeIds.contains r.id)).filter
      (fun r => !disliked.contains r.id)).filter
      (fun r => !recipeContainsBlocked env r.id)

/-- The base set `pickAlternativeRecipe` selects from, after its fallback. -/
def altBase (env : Env) (mealType : MealType) (currentRecipeId : Nat)
    (excludeRecipeIds cooldownExclude disliked : List Nat) : List Recipe :=
  if (altBase1 env mealType currentRecipeId excludeRecipeIds cooldownExclude disliked).isEmpty
  then altBase2 env mealType currentRecipeId excludeRecipeIds disliked
  else altBase1 env mealType currentRecipeId excludeRecipeIds cooldownExclude disliked

/-- The candidate set of `pickAlternativeRecipe` after the hard
desired-ingredient restriction. -/
def altCandidates (env : Env) (mealType : MealType) (currentRecipeId : Nat)
    (excludeRecipeIds cooldownExclude disliked : List Nat) : List Recipe :=
  hardRestrict env (altBase env mealType currentRecipeId excludeRecipeIds cooldownExclude disliked)

/-- `candidateIds` of `pickAlternativeRecipe`: ids of the full ranked
candidate list. -/
def altRankedIds (env : Env) (mealType : MealType) (currentRecipeId : Nat)
    (excludeRecipeIds cooldownExclude disliked : List Nat) : List Nat :=
  (sortByLe (rankLe env) (altCandidates env mealType currentRecipeId excludeRecipeIds cooldownExclude disliked)).map
    (fun rc => rc.id)

/-- The replace pool after the intersect-with-candidates and
refill-on-empty steps of `pickAlternativeRecipe`
(`pool.filter(candidateSet.has)`, reshuffled when empty). -/
def altPool (env : Env) (mealType : MealType) (currentRecipeId : Nat)
    (excludeRecipeIds cooldownExclude disliked : List Nat)
    (shuf : List Nat → List Nat) (pool : List Nat) : List Nat :=
  if (pool.filter (fun i => (altRankedIds env mealType currentRecipeId excludeRecipeIds
      cooldownExclude disliked).contains i)).isEmpty
  then shuf (altRankedIds env mealType currentRecipeId excludeRecipeIds cooldownExclude disliked)
  else pool.filter (fun i => (altRankedIds env mealType currentRecipeId excludeRecipeIds
      cooldownExclude disliked).contains i)

/-- `pickAlternativeRecipe(opts)` together with its effect on
`replacePoolRef.current[mealType]` (passed in as `pool`, returned
updated).  `shuf` models `shuffleNumbers`; `dislikedOverride.getD` models
`dislikedOverride ?? dislikedIds`. Returns `(nextRecipeId, new pool)`. -/
def pickAlternativeRecipe (env : Env) (mealType : MealType) (currentRecipeId : Nat)
    (excludeRecipeIds cooldownExclude : List Nat) (dislikedOverride : Option (List Nat))
    (shuf : List Nat → List Nat) (pool : List Nat) : Option Nat × List Nat :=
  if (altBase env mealType currentRecipeId excludeRecipeIds cooldownExclude
      (dislikedOverride.getD env.dislikedIds)).isEmpty
  then (none, pool)
  else
    ((altPool env mealType currentRecipeId excludeRecipeIds cooldownExclude
        (dislikedOverride.getD env.dislikedIds) shuf pool).head?,
      (altPool env mealType currentRecipeId excludeRecipeIds cooldownExclude
        (dislikedOverride.getD env.dislikedIds) shuf pool).tail)

/-- `pruneQueue(queue, currentDayIndex, cd)`: drops entries with
`dayIndex <= currentDayIndex - cd`; a no-op when `cd <= 0`. -/
def pruneQueue (queue : List UseEntry) (currentDayIndex : Int) (cd : Nat) : List UseEntry :=
  if cd = 0 then queue
  else queue.filter (fun e => decide (e.dayIndex > currentDayIndex - (cd : Int)))

/-- `queueToSet(queue)`: the recipe ids of a queue, as a membership set. -/
def queueToSet (queue : List UseEntry) : List Nat :=
  queue.map (fun e => e.recipeId)

/-- `getCooldownExcludeForSlot(slot)`: scans all slots of the plan and
collects recipes of other cook slots of the same meal type within the
cooldown distance. -/
def getCooldownExcludeForSlot (slots : List Slot) (cooldownDays : Nat) (slot : Slot) : List Nat :=
  if cooldownDays = 0 then []
  else slots.filterMap (fun s =>
    match s.recipe_id with
    | none => none
    | some rid =>
      if s.servings = 0 then none
      else if s.meal_type ≠ slot.meal_type then none
      else if s.id = slot.id then none
      else if (s.date - slot.date).natAbs < cooldownDays then some rid
      else none)

/-- The exclusion set exactly as the claim words it: recipes of *all*
slots of the plan other than `slot` with the same meal type within the
cooldown distance (no cook-slot restriction).  Used to compare the claim
against `getCooldownExcludeForSlot`. -/
def claimCooldownExcludeForSlot (slots : List Slot) (cooldownDays : Nat) (slot : Slot) : List Nat :=
  if cooldownDays = 0 then []
  else slots.filterMap (fun s =>
    if s.id ≠ slot.id ∧ s.meal_type = slot.meal_type
        ∧ (s.date - slot.date).natAbs < cooldownDays
    then s.recipe_id else none)

/-- The relaxed eligible set exactly as the claim words the fallback of
the eligibility filter: drop both the "not globally used" and the "not
cooldown-excluded" constraints, keep dislike and blocked-ingredient.
Used to compare the claim against the fallback `pickRecipe` actually
takes (`fillBase2`, which keeps the "not globally used" filter). -/
def claimRelaxedSet (env : Env) (mealType : MealType) : List Recipe :=
  ((env.recipes.filter (fun r => r.meal_type == mealType)).filter
      (fun r => !env.dislikedIds.contains r.id)).filter
      (fun r => !recipeContainsBlocked env r.id)

/-- The comparator of `[...slots].sort((a, b) => a.date.localeCompare(b.date))`:
ISO date strings compare lexicographically in chronological order. -/
def dateLe (a b : Slot) : Bool :=
  decide (a.date ≤ b.date)

/-- The plan's slots sorted by date. -/
def sortSlotsByDate (slots : List Slot) : List Slot :=
  sortByLe dateLe slots

/-- The scan loop of `getLunchBlockSlotIdsToReplace`: walk the slots after
the target in date order, skip (`continue`) non-lunch slots, stop
(`break`) at the first lunch slot that does not carry the old recipe with
`servings == 0`, collect the ids of the run. -/
def lunchRunIds (oldRid : Nat) : List Slot → List Nat
  | [] => []
  | s :: rest =>
    if s.meal_type ≠ MealType.lunch then lunchRunIds oldRid rest
    else if s.recipe_id ≠ some oldRid then []
    else if s.servings ≠ 0 then []
    else s.id :: lunchRunIds oldRid rest

/-- `getLunchBlockSlotIdsToReplace(target)`. -/
def getLunchBlockSlotIdsToReplace (slots : List Slot) (target : Slot) : List Nat :=
  match target.recipe_id with
  | none => [target.id]
  | some oldRid =>
    let sorted := sortSlotsByDate slots
    let idx := sorted.findIdx (fun s => s.id == target.id)
    target.id :: lunchRunIds oldRid (sorted.drop (idx + 1))

/-- The slot-state update both `replaceSlot` and the `swap` branch of
`handleUndo` perform: write `rid` into every slot whose id is listed
(`.update({ recipe_id }).in("id", slotIds)` plus the matching `setSlots`). -/
def applyRecipeUpdate (slots : List Slot) (slotIds : List Nat) (rid : Nat) : List Slot :=
  slots.map (fun s => if slotIds.contains s.id then { s with recipe_id := some rid } else s)

/-- The undo journal entries of the meal-plan page (`type UndoAction`). -/
inductive UndoAction where
  | swap (slotIds : List Nat) (prevRecipeId nextRecipeId : Nat)
  | blockIngredient (ingredientId : Nat) (ingredientName : String)
deriving DecidableEq

/-- The state touched by replacement and undo on the meal-plan page. -/
structure PlanState where
  slots : List Slot
  blockedIngredientIds : List Nat
  undoStack : List UndoAction
deriving DecidableEq

/-- `pushUndoAction(action)`: append and keep the most recent 30
(`next.slice(-30)`). -/
def pushUndoAction (stack : List UndoAction) (action : UndoAction) : List UndoAction :=
  (stack ++ [action]).drop ((stack ++ [action]).length - 30)

/-- The successful path of `replaceSlot` after a non-null pick
`newRecipeId`: update the target (and, for lunch, its leftover block) and
push the inverse `swap` entry.  Returns `none` on the guard paths
(`!slot.recipe_id`, `servings === 0`). -/
def replaceSlotModel (st : PlanState) (slot : Slot) (newRecipeId : Nat) : Option PlanState :=
  match slot.recipe_id with
  | none => none
  | some prev =>
    if slot.servings = 0 then none
    else
      let slotIdsToUpdate :=
        if slot.meal_type = MealType.lunch
        then getLunchBlockSlotIdsToReplace st.slots slot
        else [slot.id]
      some { st with
        slots := applyRecipeUpdate st.slots slotIdsToUpdate newRecipeId,
        undoStack := pushUndoAction st.undoStack (.swap slotIdsToUpdate prev newRecipeId) }

/-- The successful path of `handleUndo` on the meal-plan page: pop the
most recent entry and apply its inverse. -/
def handleUndoModel (st : PlanState) : Option PlanState :=
  match st.undoStack.getLast? with
  | none => none
  | some last =>
    let stack := st.undoStack.dropLast
    match last with
    | .swap slotIds prevRecipeId _ =>
      some { st with slots := applyRecipeUpdate st.slots slotIds prevRecipeId, undoStack := stack }
    | .blockIngredient ingredientId _ =>
      some { st with
        blockedIngredientIds := st.blockedIngredientIds.filter (fun i => i ≠ ingredientId),
        undoStack := stack }

/-- The generation options `createPlan` reads after input normalisation
(`daysValue`, `peopleValue`, `lunchSpanValue`, `cd = max(0, floor(cooldown))`). -/
structure GenCfg where
  startDate : Int
  daysValue : Nat
  peopleValue : Nat
  lunchSpanValue : Nat
  cd : Nat
deriving DecidableEq, Repr

/-- The per-meal-type cooldown queues of `createPlan`. -/
structure Queues where
  breakfast : List UseEntry
  lunch : List UseEntry
  dinner : List UseEntry
deriving DecidableEq, Repr

/-- `queues.get(mealType)`. -/
def Queues.get (qs : Queues) : MealType → List UseEntry
  | MealType.breakfast => qs.breakfast
  | MealType.lunch => qs.lunch
  | MealType.dinner => qs.dinner

/-- `queues.set(mealType, q)`. -/
def Queues.set (qs : Queues) : MealType → List UseEntry → Queues
  | MealType.breakfast, q => { qs with breakfast := q }
  | MealType.lunch, q => { qs with lunch := q }
  | MealType.dinner, q => { qs with dinner := q }

/-- The mutable state of the `createPlan` generation loop. -/
structure FillState where
  queues : Queues
  usedGlobal : List Nat
  newSlots : List NewSlot
  rndIdx : Nat
  blockedMiss : Bool
deriving DecidableEq

/-- The history seeding of `createPlan`: for `cd > 0`, rows dated in
`[startDate − cd, startDate)` with `servings > 0` (and a non-null recipe,
enforced by the query) are pushed as `{ dayIndex: −dist, recipeId }` onto
their meal type's queue. -/
def seedQueues (cfg : GenCfg) (hist : List SlotHistoryRow) : Queues :=
  if cfg.cd = 0 then ⟨[], [], []⟩
  else hist.foldl (fun qs row =>
    if cfg.startDate - (cfg.cd : Int) ≤ row.date ∧ row.date < cfg.startDate
        ∧ 0 < row.servings then
      let dist := cfg.startDate - row.date
      if dist ≤ 0 then qs
      else qs.set row.meal_type (qs.get row.meal_type ++ [⟨-dist, row.recipe_id⟩])
    else qs) ⟨[], [], []⟩

/-- The date of day index `day` of the plan (`addDaysISO(startDate, day)`). -/
def mkDate (cfg : GenCfg) (day : Nat) : Int :=
  cfg.startDate + (day : Int)

/-- The shared per-meal picking step of the `createPlan` day loop: prune
the queue to the current day, build the cooldown exclusion set, pick, and
record the pick in `usedGlobal` and the queue. -/
def pickStep (env : Env) (cfg : GenCfg) (m : MealType) (day : Nat) (st : FillState) :
    Option Nat × FillState :=
  let q := pruneQueue (st.queues.get m) (day : Int) cfg.cd
  let cooldownExclude := if 0 < cfg.cd then queueToSet q else []
  let rid := pickRecipe env m st.usedGlobal cooldownExclude (env.rnd st.rndIdx)
  let blockedMiss := st.blockedMiss || (rid.isNone && !env.blockedIngredientIds.isEmpty)
  match rid with
  | some r =>
    (some r, { st with
      queues := st.queues.set m (q ++ [⟨(day : Int), r⟩]),
      usedGlobal := r :: st.usedGlobal,
      rndIdx := st.rndIdx + 1,
      blockedMiss := blockedMiss })
  | none =>
    (none, { st with
      queues := st.queues.set m q,
      rndIdx := st.rndIdx + 1,
      blockedMiss := blockedMiss })

/-- The breakfast part of one day of the `createPlan` loop. -/
def bStep (env : Env) (cfg : GenCfg) (day : Nat) (st : FillState) : FillState :=
  let (rid, st') := pickStep env cfg MealType.breakfast day st
  { st' with newSlots := st'.newSlots
      ++ [⟨mkDate cfg day, MealType.breakfast, rid, cfg.peopleValue⟩] }

/-- The lunch part of one day of the `createPlan` loop: the plain branch
for `lunchSpanValue <= 1`, otherwise the batch branch creating a cook slot
with `servings = peopleValue * lunchSpanValue` on days `day % span == 0`
followed by its `servings = 0` leftover slots (bounded by the plan
length). -/
def lStep (env : Env) (cfg : GenCfg) (day : Nat) (st : FillState) : FillState :=
  if cfg.lunchSpanValue ≤ 1 then
    let (rid, st') := pickStep env cfg MealType.lunch day st
    { st' with newSlots := st'.newSlots
        ++ [⟨mkDate cfg day, MealType.lunch, rid, cfg.peopleValue⟩] }
  else if day % cfg.lunchSpanValue = 0 then
    let (rid, st') := pickStep env cfg MealType.lunch day st
    let leftovers := ((List.range' 1 (cfg.lunchSpanValue - 1)).takeWhile
        (fun k => day + k < cfg.daysValue)).map
      (fun k => (⟨mkDate cfg (day + k), MealType.lunch, rid, 0⟩ : NewSlot))
    { st' with newSlots := st'.newSlots
        ++ [⟨mkDate cfg day, MealType.lunch, rid, cfg.peopleValue * cfg.lunchSpanValue⟩]
        ++ leftovers }
  else st

/-- The dinner part of one day of the `createPlan` loop. -/
def dStep (env : Env) (cfg : GenCfg) (day : Nat) (st : FillState) : FillState :=
  let (rid, st') := pickStep env cfg MealType.dinner day st
  { st' with newSlots := st'.newSlots
      ++ [⟨mkDate cfg day, MealType.dinner, rid, cfg.peopleValue⟩] }

/-- One full day of the `createPlan` loop: breakfast, lunch, dinner. -/
def dayStep (env : Env) (cfg : GenCfg) (day : Nat) (st : FillState) : FillState :=
  dStep env cfg day (lStep env cfg day (bStep env cfg day st))

/-- The state of the `createPlan` loop before processing day `d`. -/
def stateAt (env : Env) (cfg : GenCfg) (hist : List SlotHistoryRow) (d : Nat) : FillState :=
  (List.range d).foldl (fun st day => dayStep env cfg day st)
    ⟨seedQueues cfg hist, [], [], 0, false⟩

/-- The full slot list built by `createPlan` (the `newSlots` array handed
to the bulk insert). -/
def createPlanSlots (env : Env) (cfg : GenCfg) (hist : List SlotHistoryRow) : List NewSlot :=
  (stateAt env cfg hist cfg.daysValue).newSlots

/-- The parts of day `day` processed before meal `m` is picked (breakfast
is picked first, then lunch, then dinner). -/
def midState (env : Env) (cfg : GenCfg) (day : Nat) (st : FillState) : MealType → FillState
  | MealType.breakfast => st
  | MealType.lunch => bStep env cfg day st
  | MealType.dinner => lStep env cfg day (bStep env cfg day st)

/-- The loop state at the moment meal `m` of day `d` is picked. -/
def preState (env : Env) (cfg : GenCfg) (hist : List SlotHistoryRow) (m : MealType) (d : Nat) :
    FillState :=
  midState env cfg d (stateAt env cfg hist d) m

/-- The cooldown exclusion set handed to `pickRecipe` for meal `m` on day
`d` during generation. -/
def exclAt (env : Env) (cfg : GenCfg) (hist : List SlotHistoryRow) (m : MealType) (d : Nat) :
    List Nat :=
  if 0 < cfg.cd
  then queueToSet (pruneQueue ((preState env cfg hist m d).queues.get m) (d : Int) cfg.cd)
  else []

/-- The recipe `createPlan` picks for meal `m` on day `d` (meaningful for
the batched meal type only on its cook days). -/
def pickAt (env : Env) (cfg : GenCfg) (hist : List SlotHistoryRow) (m : MealType) (d : Nat) :
    Option Nat :=
  (pickStep env cfg m d (preState env cfg hist m d)).1

/-- The per-ingredient record of a pantry transfer
(`type PantryTransferChange`). -/
structure PantryTransferChange where
  ingredientId : Nat
  prevQty : Option Int
  nextQty : Option Int
  hadRowBefore : Bool
deriving DecidableEq, Repr

/-- `addToPantry(ingredientId, transferQty)` on the shopping-list page,
acting on the user's pantry table modelled as a list of
`(ingredient_id, quantity)` rows with nullable quantities.  Returns the
recorded change and the updated table; `none` models the
`transferQty <= 0` guard. -/
def addToPantry (pantry : List (Nat × Option Int)) (ingredientId : Nat) (transferQty : Int) :
    Option (PantryTransferChange × List (Nat × Option Int)) :=
  if transferQty ≤ 0 then none
  else
    match pantry.find? (fun row => row.1 == ingredientId) with
    | some row =>
      let prevQty := row.2
      let nextQty := prevQty.getD 0 + transferQty
      some (⟨ingredientId, prevQty, some nextQty, true⟩,
        pantry.map (fun r => if r.1 = ingredientId then (r.1, some nextQty) else r))
    | none =>
      let nextQty := (0 : Int) + transferQty
      some (⟨ingredientId, none, some nextQty, false⟩,
        pantry ++ [(ingredientId, some nextQty)])

/-- The `pantryTransfer` branch of the shopping-list page's `handleUndo`:
for each recorded change, restore the previous quantity if a row
pre-existed, otherwise delete the row. -/
def undoPantryTransfer (pantry : List (Nat × Option Int))
    (changes : List PantryTransferChange) : List (Nat × Option Int) :=
  changes.foldl (fun p change =>
    if change.hadRowBefore then
      p.map (fun r => if r.1 = change.ingredientId then (r.1, change.prevQty) else r)
    else
      p.filter (fun r => r.1 ≠ change.ingredientId)) pantry

/-- The lunch slots strictly after `target` in date order, as the claim
describes the propagation run: the candidates for the contiguous trailing
batch. -/
def lunchSlotsAfter (slots : List Slot) (target : Slot) : List Slot :=
  ((sortSlotsByDate slots).drop
      ((sortSlotsByDate slots).findIdx (fun s => s.id == target.id) + 1)).filter
    (fun s => s.meal_type == MealType.lunch)

/-- Repeated "swap" calls: run `pickAlternativeRecipe` `n` times with the
same arguments, threading the replace pool, collecting the offered
recipes. -/
def runReplace (env : Env) (mealType : MealType) (currentRecipeId : Nat)
    (excludeRecipeIds cooldownExclude : List Nat) (dislikedOverride : Option (List Nat))
    (shuf : List Nat → List Nat) : List Nat → Nat → List (Option Nat) × List Nat
  | pool, 0 => ([], pool)
  | pool, n + 1 =>
    let out := pickAlternativeRecipe env mealType currentRecipeId excludeRecipeIds
      cooldownExclude dislikedOverride shuf pool
    let rest := runReplace env mealType currentRecipeId excludeRecipeIds cooldownExclude
      dislikedOverride shuf out.2 n
    (out.1 :: rest.1, rest.2)

/-- The lunch slots the claim says `createPlan` produces for cook day `d`
when batching is on: one cook slot with `servings = peopleValue × span`
and the trailing leftover slots sharing its recipe with `servings = 0`,
bounded by the plan length. -/
def lunchBlockFor (env : Env) (cfg : GenCfg) (hist : List SlotHistoryRow) (d : Nat) :
    List NewSlot :=
  ⟨mkDate cfg d, MealType.lunch, pickAt env cfg hist MealType.lunch d,
      cfg.peopleValue * cfg.lunchSpanValue⟩ ::
    ((List.range' 1 (cfg.lunchSpanValue - 1)).takeWhile (fun k => d + k < cfg.daysValue)).map
      (fun k => ⟨mkDate cfg (d + k), MealType.lunch, pickAt env cfg hist MealType.lunch d, 0⟩)

/-! ## Helper lemmas about the sort model -/

theorem insertLe_perm {α : Type} (le : α → α → Bool) (x : α) (l : List α) :
    (insertLe le x l).Perm (x :: l) := by
  induction l with
  | nil => exact List.Perm.refl _
  | cons y ys ih =>
    rw [insertLe]
    split
    · exact List.Perm.refl _
    · exact (ih.cons y).trans (List.Perm.swap x y ys)

theorem sortByLe_perm {α : Type} (le : α → α → Bool) (l : List α) :
    (sortByLe le l).Perm l := by
  induction l with
  | nil => exact List.Perm.refl _
  | cons x xs ih =>
    rw [sortByLe]
    exact (insertLe_perm le x _).trans (ih.cons x)

theorem sortByLe_length {α : Type} (le : α → α → Bool) (l : List α) :
    (sortByLe le l).length = l.length :=
  (sortByLe_perm le l).length_eq

theorem mem_sortByLe {α : Type} (le : α → α → Bool) (l : List α) (a : α) :
    a ∈ sortByLe le l ↔ a ∈ l :=
  (sortByLe_perm le l).mem_iff

theorem pairwise_insertLe {α : Type} (le : α → α → Bool)
    (htrans : ∀ a b c, le a b = true → le b c = true → le a c = true)
    (htotal : ∀ a b, le a b = true ∨ le b a = true) (x : α) :
    ∀ l : List α, l.Pairwise (fun a b => le a b = true) →
      (insertLe le x l).Pairwise (fun a b => le a b = true)
  | [], _ => by simp [insertLe]
  | y :: ys, h => by
    rcases List.pairwise_cons.mp h with ⟨hy, hys⟩
    rw [insertLe]
    split
    case isTrue hxy =>
      refine List.pairwise_cons.mpr ⟨?_, h⟩
      intro b hb
      rcases List.mem_cons.mp hb with rfl | hb'
      · exact hxy
      · exact htrans _ _ _ hxy (hy b hb')
    case isFalse hxy =>
      have hyx : le y x = true := by
        rcases htotal x y with h' | h'
        · exact absurd h' hxy
        · exact h'
      refine List.pairwise_cons.mpr ⟨?_, pairwise_insertLe le htrans htotal x ys hys⟩
      intro b hb
      have hb2 : b = x ∨ b ∈ ys := by
        have := (insertLe_perm le x ys).mem_iff.mp hb
        simpa using this
      rcases hb2 with rfl | hb'
      · exact hyx
      · exact hy b hb'

theorem pairwise_sortByLe {α : Type} (le : α → α → Bool)
    (htrans : ∀ a b c, le a b = true → le b c = true → le a c = true)
    (htotal : ∀ a b, le a b = true ∨ le b a = true) :
    ∀ l : List α, (sortByLe le l).Pairwise (fun a b => le a b = true)
  | [] => by simp [sortByLe]
  | x :: xs => by
    rw [sortByLe]
    exact pairwise_insertLe le htrans htotal x _ (pairwise_sortByLe le htrans htotal xs)

/-! ## C4: the replacement cooldown exclusion set -/

/-- C4 counterexample: with `cooldownDays = 3`, a same-meal-type *leftover*
slot (`servings == 0`) one day away carries recipe `5`; the claim's
exclusion set (all slots) contains `5`, but `getCooldownExcludeForSlot`
skips leftover slots and does not. -/
theorem C4_counterexample :
    5 ∈ claimCooldownExcludeForSlot
        [⟨0, 0, MealType.lunch, some 1, 2⟩, ⟨1, 1, MealType.lunch, some 5, 0⟩] 3
        ⟨0, 0, MealType.lunch, some 1, 2⟩
    ∧ 5 ∉ getCooldownExcludeForSlot
        [⟨0, 0, MealType.lunch, some 1, 2⟩, ⟨1, 1, MealType.lunch, some 5, 0⟩] 3
        ⟨0, 0, MealType.lunch, some 1, 2⟩ := by
  decide

/-- C4 (amended): for every slot `s`, when `cooldownDays > 0` the
replacement cooldown exclusion set for `s` contains exactly the recipes of
the *cook* slots (`servings > 0`, non-null recipe) of the plan other than
`s` that have the same meal-type as `s` and whose absolute date distance
to `s` is strictly less than `cooldownDays`; when `cooldownDays = 0` the
set is empty. -/
theorem C4_cooldown_exclusion_set :
    ∀ (slots : List Slot) (cooldownDays : Nat) (slot : Slot) (rid : Nat),
      rid ∈ getCooldownExcludeForSlot slots cooldownDays slot ↔
        (0 < cooldownDays ∧ ∃ s ∈ slots, s.recipe_id = some rid ∧ s.servings ≠ 0
          ∧ s.meal_type = slot.meal_type ∧ s.id ≠ slot.id
          ∧ (s.date - slot.date).natAbs < cooldownDays) := by
  intro slots cooldownDays slot rid
  unfold getCooldownExcludeForSlot
  split
  case isTrue h => simp [h]
  case isFalse h =>
    rw [List.mem_filterMap]
    constructor
    · rintro ⟨s, hs, hf⟩
      refine ⟨Nat.pos_of_ne_zero h, s, hs, ?_⟩
      rcases hrid : s.recipe_id with _ | r
      · rw [hrid] at hf
        simp at hf
      · rw [hrid] at hf
        have hf' : (if s.servings = 0 then (none : Option Nat)
            else if s.meal_type ≠ slot.meal_type then none
            else if s.id = slot.id then none
            else if (s.date - slot.date).natAbs < cooldownDays then some r
            else none) = some rid := hf
        by_cases h1 : s.servings = 0
        · rw [if_pos h1] at hf'
          exact absurd hf' (by simp)
        rw [if_neg h1] at hf'
        by_cases h2 : s.meal_type ≠ slot.meal_type
        · rw [if_pos h2] at hf'
          exact absurd hf' (by simp)
        rw [if_neg h2] at hf'
        by_cases h3 : s.id = slot.id
        · rw [if_pos h3] at hf'
          exact absurd hf' (by simp)
        rw [if_neg h3] at hf'
        by_cases h4 : (s.date - slot.date).natAbs < cooldownDays
        · rw [if_pos h4] at hf'
          obtain rfl : r = rid := by simpa using hf'
          exact ⟨rfl, h1, not_not.mp h2, h3, h4⟩
        · rw [if_neg h4] at hf'
          exact absurd hf' (by simp)
    · rintro ⟨hcd, s, hs, hrid, hserv, hmeal, hid, hdist⟩
      refine ⟨s, hs, ?_⟩
      rw [hrid]
      simp [hserv, hmeal, hid, hdist]

/-! ## C3: the fallback of the eligibility filter -/

theorem fillBase_eq_nil_iff (env : Env) (mealType : MealType) (used extraExclude : List Nat) :
    fillBase env mealType used extraExclude = [] ↔
      fillBase1 env mealType used extraExclude = [] ∧ fillBase2 env mealType used = [] := by
  unfold fillBase
  split
  case isTrue h => simp [List.isEmpty_iff.mp h]
  case isFalse h =>
    have h' := fun hh => h (List.isEmpty_iff.mpr hh)
    constructor
    · intro hh
      exact absurd hh h'
    · rintro ⟨hh, _⟩
      exact absurd hh h'

theorem hardRestrict_ne_nil (env : Env) (base : List Recipe) (h : base ≠ []) :
    hardRestrict env base ≠ [] := by
  unfold hardRestrict
  split
  · split
    case isTrue h2 => simpa [List.isEmpty_iff] using h2
    case isFalse h2 => exact h
  · exact h

theorem fillTop_length_pos (env : Env) (mealType : MealType) (used extraExclude : List Nat)
    (h : fillBase env mealType used extraExclude ≠ []) :
    0 < (fillTop env mealType used extraExclude).length := by
  have hcand := hardRestrict_ne_nil env _ h
  have hlen : 0 < (rankedFill env mealType used extraExclude).length := by
    rw [rankedFill, sortByLe_length]
    exact List.length_pos.mpr hcand
  rw [fillTop, List.length_take]
  omega

theorem pickRecipe_eq_none_iff (env : Env) (mealType : MealType) (used extraExclude : List Nat)
    (r : Nat) :
    pickRecipe env mealType used extraExclude r = none ↔
      fillBase env mealType used extraExclude = [] := by
  unfold pickRecipe
  split
  case isTrue h => simp [List.isEmpty_iff.mp h]
  case isFalse h =>
    have hbase : fillBase env mealType used extraExclude ≠ [] := by
      simpa [List.isEmpty_iff] using h
    have htop := fillTop_length_pos env mealType used extraExclude hbase
    have hidx : r % (fillTop env mealType used extraExclude).length
        < (fillTop env mealType used extraExclude).length :=
      Nat.mod_lt _ htop
    rw [List.get?_eq_get hidx]
    simp [hbase]

theorem altBase_eq_nil_iff (env : Env) (mealType : MealType) (currentRecipeId : Nat)
    (excludeRecipeIds cooldownExclude disliked : List Nat) :
    altBase env mealType currentRecipeId excludeRecipeIds cooldownExclude disliked = [] ↔
      altBase1 env mealType currentRecipeId excludeRecipeIds cooldownExclude disliked = []
        ∧ altBase2 env mealType currentRecipeId excludeRecipeIds disliked = [] := by
  unfold altBase
  split
  case isTrue h => simp [List.isEmpty_iff.mp h]
  case isFalse h =>
    have h' := fun hh => h (List.isEmpty_iff.mpr hh)
    constructor
    · intro hh
      exact absurd hh h'
    · rintro ⟨hh, _⟩
      exact absurd hh h'

theorem altCandidates_ne_nil (env : Env) (mealType : MealType) (currentRecipeId : Nat)
    (excludeRecipeIds cooldownExclude disliked : List Nat)
    (h : altBase env mealType currentRecipeId excludeRecipeIds cooldownExclude disliked ≠ []) :
    altCandidates env mealType currentRecipeId excludeRecipeIds cooldownExclude disliked ≠ [] :=
  hardRestrict_ne_nil env _ h

theorem altRankedIds_ne_nil (env : Env) (mealType : MealType) (currentRecipeId : Nat)
    (excludeRecipeIds cooldownExclude disliked : List Nat)
    (h : altBase env mealType currentRecipeId excludeRecipeIds cooldownExclude disliked ≠ []) :
    altRankedIds env mealType currentRecipeId excludeRecipeIds cooldownExclude disliked ≠ [] := by
  have hcand := altCandidates_ne_nil env mealType currentRecipeId excludeRecipeIds
    cooldownExclude disliked h
  unfold altRankedIds
  simp only [ne_eq, List.map_eq_nil_iff]
  intro hh
  exact hcand (List.Perm.eq_nil (hh ▸ (sortByLe_perm (rankLe env) _).symm))

theorem altPool_ne_nil (env : Env) (mealType : MealType) (currentRecipeId : Nat)
    (excludeRecipeIds cooldownExclude disliked : List Nat)
    (shuf : List Nat → List Nat) (pool : List Nat)
    (hshuf : ∀ l, (shuf l).length = l.length)
    (h : altBase env mealType currentRecipeId excludeRecipeIds cooldownExclude disliked ≠ []) :
    altPool env mealType currentRecipeId excludeRecipeIds cooldownExclude disliked shuf pool
      ≠ [] := by
  have hids := altRankedIds_ne_nil env mealType currentRecipeId excludeRecipeIds
    cooldownExclude disliked h
  unfold altPool
  split
  case isTrue h2 =>
    intro hh
    have := hshuf (altRankedIds env mealType currentRecipeId excludeRecipeIds
      cooldownExclude disliked)
    rw [hh] at this
    exact hids (List.length_eq_zero.mp this.symm)
  case isFalse h2 =>
    simpa [List.isEmpty_iff] using h2

theorem pickAlternativeRecipe_fst_eq_none_iff (env : Env) (mealType : MealType)
    (currentRecipeId : Nat) (excludeRecipeIds cooldownExclude : List Nat)
    (dislikedOverride : Option (List Nat)) (shuf : List Nat → List Nat) (pool : List Nat)
    (hshuf : ∀ l, (shuf l).length = l.length) :
    (pickAlternativeRecipe env mealType currentRecipeId excludeRecipeIds cooldownExclude
        dislikedOverride shuf pool).1 = none ↔
      altBase env mealType currentRecipeId excludeRecipeIds cooldownExclude
        (dislikedOverride.getD env.dislikedIds) = [] := by
  unfold pickAlternativeRecipe
  split
  case isTrue h => simp [List.isEmpty_iff.mp h]
  case isFalse h =>
    have hbase : altBase env mealType currentRecipeId excludeRecipeIds cooldownExclude
        (dislikedOverride.getD env.dislikedIds) ≠ [] := by
      simpa [List.isEmpty_iff] using h
    have hpool := altPool_ne_nil env mealType currentRecipeId excludeRecipeIds
      cooldownExclude (dislikedOverride.getD env.dislikedIds) shuf pool hshuf hbase
    simp only [List.head?_eq_none_iff]
    constructor
    · intro hh
      exact absurd hh hpool
    · intro hh
      exact absurd hh hbase

/-- C3 counterexample: a single lunch recipe that is globally used
elsewhere, no dislikes, no blocked ingredients, empty cooldown exclusion.
The fully-filtered set is empty; the claim's relaxed set (which drops the
"not globally used" constraint) is non-empty, so the claim predicts a
non-null pick — but `pickRecipe` keeps the "not globally used" filter in
its fallback and returns null. -/
theorem C3_counterexample :
    pickRecipe ⟨[⟨1, "a", MealType.lunch⟩], [], [], [], [], [], false, false,
        fun _ _ => true, fun _ => 0⟩ MealType.lunch [1] [] 0 = none
    ∧ claimRelaxedSet ⟨[⟨1, "a", MealType.lunch⟩], [], [], [], [], [], false, false,
        fun _ _ => true, fun _ => 0⟩ MealType.lunch ≠ [] := by
  constructor
  · rfl
  · intro h
    exact absurd (congrArg List.length h) (by decide)

/-- C3 (amended): in recipe selection for both initial fill and
replacement, whenever the fully-filtered eligible set is empty, the
selection is retried on the set obtained by dropping only the "not
cooldown-excluded" constraint, while still applying the "not globally
used", dislike and blocked-ingredient filters; only if that relaxed set is
also empty does selection return null and the slot stay unfilled. -/
theorem C3_fallback_drops_cooldown_only :
    ∀ (env : Env) (mealType : MealType) (used extraExclude : List Nat) (r : Nat),
      (pickRecipe env mealType used extraExclude r = none ↔
        fillBase1 env mealType used extraExclude = [] ∧ fillBase2 env mealType used = [])
      ∧ ∀ (currentRecipeId : Nat) (excl cool : List Nat) (dov : Option (List Nat))
          (shuf : List Nat → List Nat) (pool : List Nat),
          (∀ l, (shuf l).length = l.length) →
          ((pickAlternativeRecipe env mealType currentRecipeId excl cool dov shuf pool).1
              = none ↔
            altBase1 env mealType currentRecipeId excl cool (dov.getD env.dislikedIds) = []
              ∧ altBase2 env mealType currentRecipeId excl (dov.getD env.dislikedIds) = []) := by
  intro env mealType used extraExclude r
  constructor
  · rw [pickRecipe_eq_none_iff, fillBase_eq_nil_iff]
  · intro currentRecipeId excl cool dov shuf pool hshuf
    rw [pickAlternativeRecipe_fst_eq_none_iff env mealType currentRecipeId excl cool dov
      shuf pool hshuf, altBase_eq_nil_iff]

/-- Witness for the amended C3: a concrete environment where the full set
is empty, the cooldown-only relaxed set is non-empty, and the pick indeed
succeeds through the fallback. -/
theorem C3_fallback_witness :
    pickRecipe ⟨[⟨1, "a", MealType.lunch⟩], [], [], [], [], [], false, false,
        fun _ _ => true, fun _ => 0⟩ MealType.lunch [] [1] 0 ≠ none := by
  have h := (C3_fallback_drops_cooldown_only ⟨[⟨1, "a", MealType.lunch⟩], [], [], [], [], [],
    false, false, fun _ _ => true, fun _ => 0⟩ MealType.lunch [] [1] 0).1
  intro hnone
  have := h.mp hnone
  exact absurd (congrArg List.length this.2) (by decide)

/-! ## C10: pantry transfer and its undo -/

theorem nodup_map_unique {α : Type} (f : α → Nat) :
    ∀ {l : List α}, (l.map f).Nodup → ∀ x y, x ∈ l → y ∈ l → f x = f y → x = y := by
  intro l
  induction l with
  | nil =>
    intro _ x y hx _ _
    cases hx
  | cons z zs ih =>
    intro hnd x y hx hy hxy
    rw [List.map_cons, List.nodup_cons] at hnd
    cases List.mem_cons.mp hx with
    | inl hxz =>
      cases List.mem_cons.mp hy with
      | inl hyz => rw [hxz, hyz]
      | inr hy2 =>
        subst hxz
        exact absurd (hxy ▸ List.mem_map_of_mem f hy2) hnd.1
    | inr hx2 =>
      cases List.mem_cons.mp hy with
      | inl hyz =>
        subst hyz
        exact absurd (hxy ▸ List.mem_map_of_mem f hx2) hnd.1
      | inr hy2 => exact ih hnd.2 x y hx2 hy2 hxy

/-- C10: undoing a pantry-transfer entry restores the pantry row to its
exact pre-transfer state — the previous quantity is written back if a row
existed before the transfer, and the row is deleted if it did not — so a
transfer followed by its undo leaves the pantry unchanged. -/
theorem C10_pantry_transfer_undo (pantry : List (Nat × Option Int)) (ingredientId : Nat)
    (transferQty : Int) (ch : PantryTransferChange) (p' : List (Nat × Option Int))
    (hnodup : (pantry.map Prod.fst).Nodup)
    (hadd : addToPantry pantry ingredientId transferQty = some (ch, p')) :
    undoPantryTransfer p' [ch] = pantry := by
  unfold addToPantry at hadd
  by_cases hq : transferQty ≤ 0
  · rw [if_pos hq] at hadd
    exact absurd hadd (by simp)
  rw [if_neg hq] at hadd
  rcases hfind : pantry.find? (fun row => row.1 == ingredientId) with _ | row
  · rw [hfind] at hadd
    simp only [Option.some.injEq, Prod.mk.injEq] at hadd
    obtain ⟨hch, hp'⟩ := hadd
    subst hch
    subst hp'
    unfold undoPantryTransfer
    simp only [List.foldl_cons, List.foldl_nil]
    rw [if_neg (by simp)]
    rw [List.filter_append]
    have h1 : pantry.filter (fun r => decide ¬(r.1 = ingredientId)) = pantry := by
      apply List.filter_eq_self.mpr
      intro x hx
      have := List.find?_eq_none.mp hfind x hx
      simpa using fun hh => this (by simpa using hh)
    have h2 : ([(ingredientId, some ((0 : Int) + transferQty))].filter
        (fun r => decide ¬(r.1 = ingredientId))) = [] := by
      simp
    simpa [h2] using h1
  · rw [hfind] at hadd
    have hrowp : row.1 = ingredientId := by
      have := List.find?_some hfind
      simpa using this
    have hrowmem : row ∈ pantry := List.mem_of_find?_eq_some hfind
    simp only [Option.some.injEq, Prod.mk.injEq] at hadd
    obtain ⟨hch, hp'⟩ := hadd
    subst hch
    subst hp'
    unfold undoPantryTransfer
    simp only [List.foldl_cons, List.foldl_nil]
    rw [if_pos (by simp)]
    rw [List.map_map]
    have : ∀ x ∈ pantry,
        ((fun r => if r.1 = ingredientId then (r.1, row.2) else r) ∘
          (fun r => if r.1 = ingredientId then (r.1, some (row.2.getD 0 + transferQty)) else r)) x
          = x := by
      intro x hx
      by_cases hxi : x.1 = ingredientId
      · have hxrow : x = row := nodup_map_unique Prod.fst hnodup x row hx hrowmem (hxi.trans hrowp.symm)
        simp only [Function.comp_apply, if_pos hxi]
        rw [hxrow]
      · simp only [Function.comp_apply, if_neg hxi]
    conv_rhs => rw [← List.map_id pantry]
    exact List.map_congr_left this

/-- Witness for C10: a concrete transfer into a one-row pantry of a new
ingredient, undone exactly. -/
theorem C10_witness :
    (([((1 : Nat), some (2 : Int))].map Prod.fst).Nodup)
    ∧ undoPantryTransfer [(1, some 2), (7, some 3)]
        [⟨7, none, some 3, false⟩] = [((1 : Nat), some (2 : Int))] := by
  refine ⟨by decide, ?_⟩
  have h := C10_pantry_transfer_undo [(1, some 2)] 7 3 ⟨7, none, some 3, false⟩
    [(1, some 2), (7, some 3)] (by decide) (by decide)
  exact h

/-! ## C8 and C9: scoring, ranking and the hard desired-ingredient mode -/

theorem pickRecipe_mem_candidates (env : Env) (mealType : MealType)
    (used extraExclude : List Nat) (r rid : Nat)
    (h : pickRecipe env mealType used extraExclude r = some rid) :
    ∃ rc ∈ fillCandidates env mealType used extraExclude, rc.id = rid := by
  unfold pickRecipe at h
  split at h
  case isTrue => exact absurd h (by simp)
  case isFalse =>
    rcases Option.map_eq_some'.mp h with ⟨rc, hget, hid⟩
    have hmem : rc ∈ fillTop env mealType used extraExclude := by
      rcases List.get?_eq_some.mp hget with ⟨hlt, hrc⟩
      exact hrc ▸ List.get_mem _ _ _
    have hmem2 : rc ∈ rankedFill env mealType used extraExclude :=
      List.mem_of_mem_take hmem
    exact ⟨rc, (mem_sortByLe _ _ rc).mp hmem2, hid⟩

theorem pickRecipe_mem_top (env : Env) (mealType : MealType)
    (used extraExclude : List Nat) (r rid : Nat)
    (h : pickRecipe env mealType used extraExclude r = some rid) :
    rid ∈ ((rankedFill env mealType used extraExclude).take
      (min 3 (rankedFill env mealType used extraExclude).length)).map (fun rc => rc.id) := by
  unfold pickRecipe at h
  split at h
  case isTrue => exact absurd h (by simp)
  case isFalse =>
    rcases Option.map_eq_some'.mp h with ⟨rc, hget, hid⟩
    have hmem : rc ∈ fillTop env mealType used extraExclude := by
      rcases List.get?_eq_some.mp hget with ⟨hlt, hrc⟩
      exact hrc ▸ List.get_mem _ _ _
    exact hid ▸ List.mem_map_of_mem (fun rc => rc.id) hmem

theorem mem_of_head?_eq_some {α : Type} {l : List α} {a : α} (h : l.head? = some a) :
    a ∈ l := by
  rcases l with _ | ⟨x, xs⟩
  · cases h
  · have hx : x = a := by simpa using h
    rw [← hx]
    exact List.mem_cons_self x xs

theorem hardRestrict_mem_strict (env : Env) (base : List Recipe)
    (hdesired : env.desiredIds ≠ []) (hflag : env.useIngredientIdsHard = true)
    (hstrict : base.filter (fun rc => recipeHasAllDesired env rc.id env.desiredIds) ≠ [])
    {rc : Recipe} (hrc : rc ∈ hardRestrict env base) :
    rc ∈ base ∧ recipeHasAllDesired env rc.id env.desiredIds = true := by
  unfold hardRestrict at hrc
  rw [if_pos (by
    simp only [hflag, Bool.true_and]
    simpa [List.isEmpty_iff] using hdesired)] at hrc
  rw [if_pos (by simpa [List.isEmpty_iff] using hstrict)] at hrc
  exact List.mem_filter.mp hrc

theorem pickAlternativeRecipe_mem_rankedIds (env : Env) (mealType : MealType)
    (currentRecipeId : Nat) (excludeRecipeIds cooldownExclude : List Nat)
    (dislikedOverride : Option (List Nat)) (shuf : List Nat → List Nat) (pool : List Nat)
    (hshuf : ∀ l, (shuf l).Perm l) {rid : Nat}
    (hpick : (pickAlternativeRecipe env mealType currentRecipeId excludeRecipeIds
      cooldownExclude dislikedOverride shuf pool).1 = some rid) :
    rid ∈ altRankedIds env mealType currentRecipeId excludeRecipeIds cooldownExclude
      (dislikedOverride.getD env.dislikedIds) := by
  unfold pickAlternativeRecipe at hpick
  split at hpick
  case isTrue => exact absurd hpick (by simp)
  case isFalse h =>
    have hmem : rid ∈ altPool env mealType currentRecipeId excludeRecipeIds cooldownExclude
        (dislikedOverride.getD env.dislikedIds) shuf pool := mem_of_head?_eq_some hpick
    unfold altPool at hmem
    split at hmem
    case isTrue h2 => exact (hshuf _).subset hmem
    case isFalse h2 =>
      have h3 := List.mem_filter.mp hmem
      exact List.elem_iff.mp h3.2

theorem altRankedIds_mem_candidates (env : Env) (mealType : MealType) (currentRecipeId : Nat)
    (excludeRecipeIds cooldownExclude disliked : List Nat) {rid : Nat}
    (h : rid ∈ altRankedIds env mealType currentRecipeId excludeRecipeIds cooldownExclude
      disliked) :
    ∃ rc ∈ altCandidates env mealType currentRecipeId excludeRecipeIds cooldownExclude
      disliked, rc.id = rid := by
  unfold altRankedIds at h
  rcases List.mem_map.mp h with ⟨rc, hrc, hid⟩
  exact ⟨rc, (mem_sortByLe _ _ rc).mp hrc, hid⟩

theorem pickAlt_congr (env1 env2 : Env) (mealType : MealType) (currentRecipeId : Nat)
    (excludeRecipeIds cooldownExclude : List Nat) (dislikedOverride : Option (List Nat))
    (shuf : List Nat → List Nat) (pool : List Nat)
    (hbase : altBase env1 mealType currentRecipeId excludeRecipeIds cooldownExclude
        (dislikedOverride.getD env1.dislikedIds)
      = altBase env2 mealType currentRecipeId excludeRecipeIds cooldownExclude
        (dislikedOverride.getD env2.dislikedIds))
    (hcand : altCandidates env1 mealType currentRecipeId excludeRecipeIds cooldownExclude
        (dislikedOverride.getD env1.dislikedIds)
      = altCandidates env2 mealType currentRecipeId excludeRecipeIds cooldownExclude
        (dislikedOverride.getD env2.dislikedIds))
    (hrank : rankLe env1 = rankLe env2) :
    pickAlternativeRecipe env1 mealType currentRecipeId excludeRecipeIds cooldownExclude
        dislikedOverride shuf pool
      = pickAlternativeRecipe env2 mealType currentRecipeId excludeRecipeIds cooldownExclude
        dislikedOverride shuf pool := by
  unfold pickAlternativeRecipe altPool altRankedIds
  rw [hbase, hcand, hrank]

/-- C8: with hard desired-ingredient mode enabled and a non-empty desired
set, both pickers — the initial-fill `pickRecipe` and the replacement
`pickAlternativeRecipe` — restrict to recipes containing all desired
ingredients exactly when at least one such recipe exists in the
(fallback-resolved) base set, otherwise behave as with the mode disabled;
and enabling the mode never turns a non-null pick into a null pick, for
either picker. -/
theorem C8_hard_mode_never_empties_pick :
    ∀ (env : Env) (mealType : MealType) (used extraExclude : List Nat) (r : Nat),
      ((fillBase env mealType used extraExclude).filter
          (fun rc => recipeHasAllDesired env rc.id env.desiredIds) ≠ [] →
        env.desiredIds ≠ [] →
        ∀ rid, pickRecipe { env with useIngredientIdsHard := true } mealType used extraExclude r
            = some rid →
          ∃ rc ∈ fillBase env mealType used extraExclude,
            rc.id = rid ∧ recipeHasAllDesired env rc.id env.desiredIds = true)
      ∧ ((fillBase env mealType used extraExclude).filter
          (fun rc => recipeHasAllDesired env rc.id env.desiredIds) = [] →
        pickRecipe { env with useIngredientIdsHard := true } mealType used extraExclude r
          = pickRecipe { env with useIngredientIdsHard := false } mealType used extraExclude r)
      ∧ (pickRecipe { env with useIngredientIdsHard := true } mealType used extraExclude r
            = none
          ↔ pickRecipe { env with useIngredientIdsHard := false } mealType used extraExclude r
            = none)
      ∧ ∀ (currentRecipeId : Nat) (excl cool : List Nat) (dov : Option (List Nat))
          (shuf : List Nat → List Nat) (pool : List Nat),
          (∀ l, (shuf l).Perm l) →
          ((altBase env mealType currentRecipeId excl cool (dov.getD env.dislikedIds)).filter
              (fun rc => recipeHasAllDesired env rc.id env.desiredIds) ≠ [] →
            env.desiredIds ≠ [] →
            ∀ rid, (pickAlternativeRecipe { env with useIngredientIdsHard := true } mealType
                currentRecipeId excl cool dov shuf pool).1 = some rid →
              ∃ rc ∈ altBase env mealType currentRecipeId excl cool
                  (dov.getD env.dislikedIds),
                rc.id = rid ∧ recipeHasAllDesired env rc.id env.desiredIds = true)
          ∧ ((altBase env mealType currentRecipeId excl cool
                (dov.getD env.dislikedIds)).filter
              (fun rc => recipeHasAllDesired env rc.id env.desiredIds) = [] →
            pickAlternativeRecipe { env with useIngredientIdsHard := true } mealType
                currentRecipeId excl cool dov shuf pool
              = pickAlternativeRecipe { env with useIngredientIdsHard := false } mealType
                currentRecipeId excl cool dov shuf pool)
          ∧ ((pickAlternativeRecipe { env with useIngredientIdsHard := true } mealType
                currentRecipeId excl cool dov shuf pool).1 = none
            ↔ (pickAlternativeRecipe { env with useIngredientIdsHard := false } mealType
                currentRecipeId excl cool dov shuf pool).1 = none) := by
  intro env mealType used extraExclude r
  have hbaseT : fillBase { env with useIngredientIdsHard := true } mealType used extraExclude
      = fillBase env mealType used extraExclude := rfl
  have hbaseF : fillBase { env with useIngredientIdsHard := false } mealType used extraExclude
      = fillBase env mealType used extraExclude := rfl
  have hhadT : recipeHasAllDesired { env with useIngredientIdsHard := true }
      = recipeHasAllDesired env := rfl
  have hdesT : ({ env with useIngredientIdsHard := true } : Env).desiredIds
      = env.desiredIds := rfl
  have hflagT : ({ env with useIngredientIdsHard := true } : Env).useIngredientIdsHard
      = true := rfl
  have hcandT : fillCandidates { env with useIngredientIdsHard := true } mealType used
      extraExclude = hardRestrict { env with useIngredientIdsHard := true }
        (fillBase env mealType used extraExclude) := by
    rw [fillCandidates, hbaseT]
  refine ⟨?_, ?_, ?_, ?_⟩
  · intro hstrict hdesired rid hpick
    rcases pickRecipe_mem_candidates _ _ _ _ _ _ hpick with ⟨rc, hrc, hid⟩
    rw [hcandT, hardRestrict, hhadT, hdesT, hflagT] at hrc
    rw [if_pos (by simpa [List.isEmpty_iff] using hdesired)] at hrc
    rw [if_pos (by simpa [List.isEmpty_iff] using hstrict)] at hrc
    rcases List.mem_filter.mp hrc with ⟨hrcbase, hrcall⟩
    exact ⟨rc, hrcbase, hid, hrcall⟩
  · intro hstrict
    have hcand : fillCandidates { env with useIngredientIdsHard := true } mealType used
        extraExclude = fillCandidates { env with useIngredientIdsHard := false } mealType used
        extraExclude := by
      rw [hcandT, hardRestrict, hhadT, hdesT, hflagT]
      have hF : fillCandidates { env with useIngredientIdsHard := false } mealType used
          extraExclude = fillBase env mealType used extraExclude := by
        rw [fillCandidates, hbaseF, hardRestrict]
        rw [if_neg (by simp)]
      rw [hF]
      by_cases hdes : env.desiredIds.isEmpty
      · rw [if_neg (by simp [hdes])]
      · rw [if_pos (by simp [hdes])]
        rw [if_neg (by simp [hstrict])]
    unfold pickRecipe fillTop rankedFill
    have hrankT : rankLe { env with useIngredientIdsHard := true } = rankLe env := rfl
    have hrankF : rankLe { env with useIngredientIdsHard := false } = rankLe env := rfl
    rw [hbaseT, hbaseF, hrankT, hrankF, hcand]
  · rw [pickRecipe_eq_none_iff, pickRecipe_eq_none_iff, hbaseT, hbaseF]
  · intro currentRecipeId excl cool dov shuf pool hshuf
    have haltT : altBase { env with useIngredientIdsHard := true } mealType currentRecipeId
        excl cool (dov.getD ({ env with useIngredientIdsHard := true } : Env).dislikedIds)
        = altBase env mealType currentRecipeId excl cool (dov.getD env.dislikedIds) := rfl
    have haltF : altBase { env with useIngredientIdsHard := false } mealType currentRecipeId
        excl cool (dov.getD ({ env with useIngredientIdsHard := false } : Env).dislikedIds)
        = altBase env mealType currentRecipeId excl cool (dov.getD env.dislikedIds) := rfl
    have hacT : altCandidates { env with useIngredientIdsHard := true } mealType
        currentRecipeId excl cool
        (dov.getD ({ env with useIngredientIdsHard := true } : Env).dislikedIds)
        = hardRestrict { env with useIngredientIdsHard := true }
          (altBase env mealType currentRecipeId excl cool (dov.getD env.dislikedIds)) := rfl
    refine ⟨?_, ?_, ?_⟩
    · intro hstrict hdesired rid hpick
      have hrid := pickAlternativeRecipe_mem_rankedIds
        { env with useIngredientIdsHard := true } mealType currentRecipeId excl cool dov
        shuf pool hshuf hpick
      rcases altRankedIds_mem_candidates _ _ _ _ _ _ hrid with ⟨rc, hrc, hid⟩
      have hrc2 : rc ∈ hardRestrict { env with useIngredientIdsHard := true }
          (altBase env mealType currentRecipeId excl cool (dov.getD env.dislikedIds)) := by
        rw [← hacT]
        exact hrc
      have hres := hardRestrict_mem_strict { env with useIngredientIdsHard := true }
        (altBase env mealType currentRecipeId excl cool (dov.getD env.dislikedIds))
        hdesired rfl hstrict hrc2
      exact ⟨rc, hres.1, hid, hres.2⟩
    · intro hstrict
      have hresH : hardRestrict { env with useIngredientIdsHard := true }
          (altBase env mealType currentRecipeId excl cool (dov.getD env.dislikedIds))
          = altBase env mealType currentRecipeId excl cool (dov.getD env.dislikedIds) := by
        rw [hardRestrict, hhadT, hdesT, hflagT]
        by_cases hdes : env.desiredIds.isEmpty
        · rw [if_neg (by simp [hdes])]
        · rw [if_pos (by simp [hdes])]
          rw [if_neg (by simp [hstrict])]
      have hacF : altCandidates { env with useIngredientIdsHard := false } mealType
          currentRecipeId excl cool
          (dov.getD ({ env with useIngredientIdsHard := false } : Env).dislikedIds)
          = altBase env mealType currentRecipeId excl cool (dov.getD env.dislikedIds) := by
        rw [show altCandidates { env with useIngredientIdsHard := false } mealType
            currentRecipeId excl cool
            (dov.getD ({ env with useIngredientIdsHard := false } : Env).dislikedIds)
            = hardRestrict { env with useIngredientIdsHard := false }
              (altBase env mealType currentRecipeId excl cool (dov.getD env.dislikedIds))
          from rfl]
        rw [hardRestrict]
        rw [if_neg (by simp)]
      exact pickAlt_congr { env with useIngredientIdsHard := true }
        { env with useIngredientIdsHard := false } mealType currentRecipeId excl cool dov
        shuf pool (haltT.trans haltF.symm) (hacT.trans (hresH.trans hacF.symm)) rfl
    · have hlen : ∀ l, (shuf l).length = l.length := fun l => (hshuf l).length_eq
      rw [pickAlternativeRecipe_fst_eq_none_iff _ mealType currentRecipeId excl cool dov
        shuf pool hlen]
      rw [pickAlternativeRecipe_fst_eq_none_iff _ mealType currentRecipeId excl cool dov
        shuf pool hlen]
      exact Iff.rfl

/-- Witness for C8: a concrete environment with a non-empty strict set
where the hard-mode initial-fill pick and the hard-mode replacement pick
both land on the recipe containing all desired ingredients. -/
theorem C8_witness :
    (∃ rc ∈ fillBase ⟨[⟨1, "a", MealType.lunch⟩, ⟨2, "b", MealType.lunch⟩], [(1, 5)], [], [],
        [], [5], false, false, fun _ _ => true, fun _ => 0⟩ MealType.lunch [] [],
      rc.id = 1 ∧ recipeHasAllDesired ⟨[⟨1, "a", MealType.lunch⟩, ⟨2, "b", MealType.lunch⟩],
        [(1, 5)], [], [], [], [5], false, false, fun _ _ => true, fun _ => 0⟩ rc.id
        (Env.desiredIds ⟨[⟨1, "a", MealType.lunch⟩, ⟨2, "b", MealType.lunch⟩],
          [(1, 5)], [], [], [], [5], false, false, fun _ _ => true, fun _ => 0⟩) = true)
    ∧ ∃ rc ∈ altBase ⟨[⟨1, "a", MealType.lunch⟩, ⟨2, "b", MealType.lunch⟩], [(1, 5)], [], [],
        [], [5], false, false, fun _ _ => true, fun _ => 0⟩ MealType.lunch 3 [] []
        (Option.getD none (Env.dislikedIds ⟨[⟨1, "a", MealType.lunch⟩,
          ⟨2, "b", MealType.lunch⟩], [(1, 5)], [], [], [], [5], false, false,
          fun _ _ => true, fun _ => 0⟩)),
      rc.id = 1 ∧ recipeHasAllDesired ⟨[⟨1, "a", MealType.lunch⟩, ⟨2, "b", MealType.lunch⟩],
        [(1, 5)], [], [], [], [5], false, false, fun _ _ => true, fun _ => 0⟩ rc.id
        (Env.desiredIds ⟨[⟨1, "a", MealType.lunch⟩, ⟨2, "b", MealType.lunch⟩],
          [(1, 5)], [], [], [], [5], false, false, fun _ _ => true, fun _ => 0⟩) = true :=
  ⟨(C8_hard_mode_never_empties_pick ⟨[⟨1, "a", MealType.lunch⟩, ⟨2, "b", MealType.lunch⟩],
      [(1, 5)], [], [], [], [5], false, false, fun _ _ => true, fun _ => 0⟩
      MealType.lunch [] [] 0).1 (by decide) (by decide) 1 (by decide),
    ((C8_hard_mode_never_empties_pick ⟨[⟨1, "a", MealType.lunch⟩, ⟨2, "b", MealType.lunch⟩],
      [(1, 5)], [], [], [], [5], false, false, fun _ _ => true, fun _ => 0⟩
      MealType.lunch [] [] 0).2.2.2 3 [] [] none (fun l => l) []
      (fun l => List.Perm.refl l)).1 (by decide) (by decide) 1 (by decide)⟩

theorem rankLe_eq_true_iff (env : Env) (a b : Recipe) :
    rankLe env a b = true ↔
      (score env b < score env a
        ∨ (score env a = score env b ∧ env.nameLe a.name b.name = true)) := by
  simp [rankLe, Bool.or_eq_true, Bool.and_eq_true, decide_eq_true_eq]

theorem rankLe_trans (env : Env)
    (htrans : ∀ x y z, env.nameLe x y = true → env.nameLe y z = true → env.nameLe x z = true) :
    ∀ a b c, rankLe env a b = true → rankLe env b c = true → rankLe env a c = true := by
  intro a b c hab hbc
  rw [rankLe_eq_true_iff] at hab hbc ⊢
  rcases hab with hab | ⟨hab, hnab⟩
  · rcases hbc with hbc | ⟨hbc, _⟩
    · exact Or.inl (hbc.trans hab)
    · exact Or.inl (hbc ▸ hab)
  · rcases hbc with hbc | ⟨hbc, hnbc⟩
    · exact Or.inl (hab ▸ hbc)
    · exact Or.inr ⟨hab.trans hbc, htrans _ _ _ hnab hnbc⟩

theorem rankLe_total (env : Env)
    (htotal : ∀ x y, env.nameLe x y = true ∨ env.nameLe y x = true) :
    ∀ a b, rankLe env a b = true ∨ rankLe env b a = true := by
  intro a b
  rcases lt_trichotomy (score env a) (score env b) with h | h | h
  · exact Or.inr ((rankLe_eq_true_iff env b a).mpr (Or.inl h))
  · rcases htotal a.name b.name with hn | hn
    · exact Or.inl ((rankLe_eq_true_iff env a b).mpr (Or.inr ⟨h, hn⟩))
    · exact Or.inr ((rankLe_eq_true_iff env b a).mpr (Or.inr ⟨h.symm, hn⟩))
  · exact Or.inl ((rankLe_eq_true_iff env a b).mpr (Or.inl h))

/-- C9: the eligible candidates are ranked descending by the composite
score (pantry-match weight, preference bonus, desired-ingredient bonus),
ties broken by the name order, and the initial-fill pick is always one of
the first `min(3, length)` recipes of this ranking. -/
theorem C9_ranking_and_top3 :
    ∀ (env : Env) (mealType : MealType) (used extraExclude : List Nat) (r : Nat),
      (∀ x y z, env.nameLe x y = true → env.nameLe y z = true → env.nameLe x z = true) →
      (∀ x y, env.nameLe x y = true ∨ env.nameLe y x = true) →
      (rankedFill env mealType used extraExclude).Perm
          (fillCandidates env mealType used extraExclude)
      ∧ (rankedFill env mealType used extraExclude).Pairwise
          (fun a b => score env b < score env a
            ∨ (score env a = score env b ∧ env.nameLe a.name b.name = true))
      ∧ ∀ rid, pickRecipe env mealType used extraExclude r = some rid →
          rid ∈ ((rankedFill env mealType used extraExclude).take
            (min 3 (rankedFill env mealType used extraExclude).length)).map
            (fun rc => rc.id) := by
  intro env mealType used extraExclude r htrans htotal
  refine ⟨sortByLe_perm _ _, ?_, ?_⟩
  · have := pairwise_sortByLe (rankLe env) (rankLe_trans env htrans) (rankLe_total env htotal)
      (fillCandidates env mealType used extraExclude)
    rw [rankedFill]
    exact this.imp (fun h => (rankLe_eq_true_iff env _ _).mp h)
  · intro rid hpick
    exact pickRecipe_mem_top env mealType used extraExclude r rid hpick

/-- Witness for C9: the concrete ranking of a two-recipe environment is a
sorted permutation of its candidate set. -/
theorem C9_witness :
    (rankedFill ⟨[⟨1, "a", MealType.lunch⟩, ⟨2, "b", MealType.lunch⟩], [(1, 5)], [5], [],
        [], [], false, true, fun _ _ => true, fun _ => 0⟩ MealType.lunch [] []).Perm
      (fillCandidates ⟨[⟨1, "a", MealType.lunch⟩, ⟨2, "b", MealType.lunch⟩], [(1, 5)], [5], [],
        [], [], false, true, fun _ _ => true, fun _ => 0⟩ MealType.lunch [] []) :=
  (C9_ranking_and_top3 ⟨[⟨1, "a", MealType.lunch⟩, ⟨2, "b", MealType.lunch⟩], [(1, 5)], [5], [],
      [], [], false, true, fun _ _ => true, fun _ => 0⟩ MealType.lunch [] [] 0
    (fun _ _ _ _ _ => rfl) (fun _ _ => Or.inl rfl)).1

/-! ## C6: the per-meal-type replace pool -/

theorem pickAlternativeRecipe_step (env : Env) (mealType : MealType) (currentRecipeId : Nat)
    (excludeRecipeIds cooldownExclude : List Nat) (dislikedOverride : Option (List Nat))
    (shuf : List Nat → List Nat) (pool : List Nat)
    (hbase : altBase env mealType currentRecipeId excludeRecipeIds cooldownExclude
      (dislikedOverride.getD env.dislikedIds) ≠ [])
    (hsub : ∀ x ∈ pool, x ∈ altRankedIds env mealType currentRecipeId excludeRecipeIds
      cooldownExclude (dislikedOverride.getD env.dislikedIds))
    (hpool : pool ≠ []) :
    pickAlternativeRecipe env mealType currentRecipeId excludeRecipeIds cooldownExclude
      dislikedOverride shuf pool = (pool.head?, pool.tail) := by
  have hfilter : pool.filter (fun i => (altRankedIds env mealType currentRecipeId
      excludeRecipeIds cooldownExclude (dislikedOverride.getD env.dislikedIds)).contains i)
      = pool := by
    apply List.filter_eq_self.mpr
    intro x hx
    exact List.elem_iff.mpr (hsub x hx)
  unfold pickAlternativeRecipe
  rw [if_neg (by simpa [List.isEmpty_iff] using hbase)]
  unfold altPool
  rw [hfilter]
  rw [if_neg (by simpa [List.isEmpty_iff] using hpool)]

theorem runReplace_prefix (env : Env) (mealType : MealType) (currentRecipeId : Nat)
    (excludeRecipeIds cooldownExclude : List Nat) (dislikedOverride : Option (List Nat))
    (shuf : List Nat → List Nat)
    (hbase : altBase env mealType currentRecipeId excludeRecipeIds cooldownExclude
      (dislikedOverride.getD env.dislikedIds) ≠ []) :
    ∀ (n : Nat) (pool : List Nat),
      (∀ x ∈ pool, x ∈ altRankedIds env mealType currentRecipeId excludeRecipeIds
        cooldownExclude (dislikedOverride.getD env.dislikedIds)) →
      n ≤ pool.length →
      runReplace env mealType currentRecipeId excludeRecipeIds cooldownExclude
          dislikedOverride shuf pool n
        = ((pool.take n).map some, pool.drop n)
  | 0, pool, _, _ => by
    simp [runReplace]
  | n + 1, pool, hsub, hn => by
    rcases pool with _ | ⟨x, xs⟩
    · exact absurd hn (by simp)
    · rw [runReplace]
      rw [pickAlternativeRecipe_step env mealType currentRecipeId excludeRecipeIds
        cooldownExclude dislikedOverride shuf (x :: xs) hbase hsub (by simp)]
      have ih := runReplace_prefix env mealType currentRecipeId excludeRecipeIds
        cooldownExclude dislikedOverride shuf hbase n xs
        (fun y hy => hsub y (List.mem_cons_of_mem x hy)) (by simpa using hn)
      simp only [List.head?_cons, List.tail_cons]
      rw [ih]
      simp

/-- C6: repeated replacement picks pop distinct recipes off the current
replace pool — no recipe is re-offered until the pool is exhausted — and a
pool that is empty (or disjoint from the current candidate set) is
refilled with the shuffle of the full current ranked candidate list. -/
theorem C6_replace_pool_no_repeat :
    ∀ (env : Env) (mealType : MealType) (currentRecipeId : Nat)
      (excludeRecipeIds cooldownExclude : List Nat) (dislikedOverride : Option (List Nat))
      (shuf : List Nat → List Nat) (pool : List Nat) (n : Nat),
      altBase env mealType currentRecipeId excludeRecipeIds cooldownExclude
        (dislikedOverride.getD env.dislikedIds) ≠ [] →
      (∀ x ∈ pool, x ∈ altRankedIds env mealType currentRecipeId excludeRecipeIds
        cooldownExclude (dislikedOverride.getD env.dislikedIds)) →
      pool.Nodup →
      n ≤ pool.length →
      ((runReplace env mealType currentRecipeId excludeRecipeIds cooldownExclude
          dislikedOverride shuf pool n).1 = (pool.take n).map some
        ∧ (runReplace env mealType currentRecipeId excludeRecipeIds cooldownExclude
          dislikedOverride shuf pool n).2 = pool.drop n
        ∧ ((pool.take n).map some).Nodup)
      ∧ ∀ pool0 : List Nat,
          pool0.filter (fun i => (altRankedIds env mealType currentRecipeId excludeRecipeIds
            cooldownExclude (dislikedOverride.getD env.dislikedIds)).contains i) = [] →
          pickAlternativeRecipe env mealType currentRecipeId excludeRecipeIds cooldownExclude
              dislikedOverride shuf pool0
            = ((shuf (altRankedIds env mealType currentRecipeId excludeRecipeIds
                cooldownExclude (dislikedOverride.getD env.dislikedIds))).head?,
              (shuf (altRankedIds env mealType currentRecipeId excludeRecipeIds
                cooldownExclude (dislikedOverride.getD env.dislikedIds))).tail) := by
  intro env mealType currentRecipeId excludeRecipeIds cooldownExclude dislikedOverride
    shuf pool n hbase hsub hnodup hn
  have hrun := runReplace_prefix env mealType currentRecipeId excludeRecipeIds cooldownExclude
    dislikedOverride shuf hbase n pool hsub hn
  refine ⟨⟨by rw [hrun], by rw [hrun], ?_⟩, ?_⟩
  · exact ((List.take_sublist n pool).nodup hnodup).map (fun _ _ => Option.some.inj)
  · intro pool0 hpool0
    unfold pickAlternativeRecipe
    rw [if_neg (by simpa [List.isEmpty_iff] using hbase)]
    unfold altPool
    rw [hpool0]
    simp

/-- Witness for C6: two successive picks from a two-element pool offer the
two recipes without repetition and leave the pool empty. -/
theorem C6_witness :
    (runReplace ⟨[⟨1, "a", MealType.lunch⟩, ⟨2, "b", MealType.lunch⟩], [], [], [], [], [],
        false, false, fun _ _ => true, fun _ => 0⟩ MealType.lunch 3 [] [] none
        (fun l => l) [2, 1] 2).1 = [some 2, some 1] := by
  have h := (C6_replace_pool_no_repeat ⟨[⟨1, "a", MealType.lunch⟩, ⟨2, "b", MealType.lunch⟩],
    [], [], [], [], [], false, false, fun _ _ => true, fun _ => 0⟩ MealType.lunch 3 [] [] none
    (fun l => l) [2, 1] 2 (by decide) (by decide) (by decide) (by decide)).1.1
  exact h

/-! ## C1 and C5: lunch-block replacement and its undo -/

theorem lunchRunIds_eq_takeWhile (oldRid : Nat) : ∀ l : List Slot,
    lunchRunIds oldRid l
      = ((l.filter (fun s => s.meal_type == MealType.lunch)).takeWhile
          (fun s => s.recipe_id == some oldRid && s.servings == 0)).map (fun s => s.id)
  | [] => rfl
  | s :: rest => by
    rw [lunchRunIds]
    by_cases h1 : s.meal_type ≠ MealType.lunch
    · rw [if_pos h1, List.filter_cons_of_neg (by simpa using h1)]
      exact lunchRunIds_eq_takeWhile oldRid rest
    · rw [if_neg h1, List.filter_cons_of_pos (by simpa using not_not.mp h1)]
      by_cases h2 : s.recipe_id ≠ some oldRid
      · have hcond : (s.recipe_id == some oldRid && s.servings == 0) = false := by
          simp [h2]
        rw [if_pos h2]
        simp [List.takeWhile_cons, hcond]
      · rw [if_neg h2]
        by_cases h3 : s.servings ≠ 0
        · have hcond : (s.recipe_id == some oldRid && s.servings == 0) = false := by
            simp [not_not.mp h2, h3]
          rw [if_pos h3]
          simp [List.takeWhile_cons, hcond]
        · have hcond : (s.recipe_id == some oldRid && s.servings == 0) = true := by
            simp [not_not.mp h2, not_not.mp h3]
          rw [if_neg h3]
          simp [List.takeWhile_cons, hcond, lunchRunIds_eq_takeWhile oldRid rest]

theorem mem_lunchRunIds (oldRid : Nat) : ∀ (l : List Slot) (x : Nat),
    x ∈ lunchRunIds oldRid l →
      ∃ s ∈ l, s.id = x ∧ s.recipe_id = some oldRid ∧ s.servings = 0
  | [], x, hx => by cases hx
  | s :: rest, x, hx => by
    rw [lunchRunIds] at hx
    by_cases h1 : s.meal_type ≠ MealType.lunch
    · rw [if_pos h1] at hx
      rcases mem_lunchRunIds oldRid rest x hx with ⟨t, ht, hts⟩
      exact ⟨t, List.mem_cons_of_mem s ht, hts⟩
    · rw [if_neg h1] at hx
      by_cases h2 : s.recipe_id ≠ some oldRid
      · rw [if_pos h2] at hx
        cases hx
      · rw [if_neg h2] at hx
        by_cases h3 : s.servings ≠ 0
        · rw [if_pos h3] at hx
          cases hx
        · rw [if_neg h3] at hx
          rcases List.mem_cons.mp hx with rfl | hx'
          · exact ⟨s, List.mem_cons_self s rest, rfl, not_not.mp h2, not_not.mp h3⟩
          · rcases mem_lunchRunIds oldRid rest x hx' with ⟨t, ht, hts⟩
            exact ⟨t, List.mem_cons_of_mem s ht, hts⟩

theorem getLunchBlock_eq_takeWhile (slots : List Slot) (target : Slot) (A : Nat)
    (hrec : target.recipe_id = some A) :
    getLunchBlockSlotIdsToReplace slots target
      = target.id :: ((lunchSlotsAfter slots target).takeWhile
          (fun s => s.recipe_id == some A && s.servings == 0)).map (fun s => s.id) := by
  unfold getLunchBlockSlotIdsToReplace
  rw [hrec]
  dsimp only
  rw [lunchRunIds_eq_takeWhile]
  rfl

/-- C1: replacing the recipe of a lunch cook slot updates exactly the
target slot plus the contiguous run of immediately-following lunch slots
that share the old recipe with `servings == 0` (stopping at the first
lunch slot breaking either condition); no other slot's recipe changes and
no slot's servings, id, date or meal type changes. -/
theorem C1_replace_updates_exactly_batch (slots : List Slot) (target : Slot) (A B : Nat)
    (hml : target.meal_type = MealType.lunch) (hserv : target.servings ≠ 0)
    (hrec : target.recipe_id = some A) :
    ∀ (ids : List Nat) (upd : List Slot),
      ids = getLunchBlockSlotIdsToReplace slots target →
      upd = applyRecipeUpdate slots ids B →
      ids = target.id :: ((lunchSlotsAfter slots target).takeWhile
          (fun s => s.recipe_id == some A && s.servings == 0)).map (fun s => s.id)
      ∧ upd.length = slots.length
      ∧ ∀ (i : Nat) (hi : i < slots.length) (hi' : i < upd.length),
          (upd[i].id = slots[i].id ∧ upd[i].date = slots[i].date
            ∧ upd[i].meal_type = slots[i].meal_type ∧ upd[i].servings = slots[i].servings)
          ∧ (slots[i].id ∈ ids → upd[i].recipe_id = some B)
          ∧ (slots[i].id ∉ ids → upd[i].recipe_id = slots[i].recipe_id) := by
  intro ids upd hids hupd
  subst hids
  subst hupd
  refine ⟨getLunchBlock_eq_takeWhile slots target A hrec, by simp [applyRecipeUpdate], ?_⟩
  intro i hi hi'
  have hget : (applyRecipeUpdate slots (getLunchBlockSlotIdsToReplace slots target) B)[i]
      = if (getLunchBlockSlotIdsToReplace slots target).contains slots[i].id
        then { slots[i] with recipe_id := some B } else slots[i] := by
    unfold applyRecipeUpdate
    rw [List.getElem_map]
  by_cases hc : slots[i].id ∈ getLunchBlockSlotIdsToReplace slots target
  · rw [hget, if_pos (List.elem_iff.mpr hc)]
    exact ⟨⟨rfl, rfl, rfl, rfl⟩, fun _ => rfl, fun hnc => absurd hc hnc⟩
  · rw [hget, if_neg (by simpa [List.elem_iff] using hc)]
    exact ⟨⟨rfl, rfl, rfl, rfl⟩, fun hc' => absurd hc' hc, fun _ => rfl⟩

/-- Witness for C1: a four-slot plan where the block for the target cook
slot is the target plus its single trailing leftover, and the run indeed
evaluates to `[1, 2]`. -/
theorem C1_witness :
    getLunchBlockSlotIdsToReplace
        [⟨1, 0, MealType.lunch, some 10, 4⟩, ⟨2, 1, MealType.lunch, some 10, 0⟩,
          ⟨3, 0, MealType.dinner, some 11, 2⟩, ⟨4, 2, MealType.lunch, some 12, 4⟩]
        ⟨1, 0, MealType.lunch, some 10, 4⟩
      = (1 : Nat) :: ((lunchSlotsAfter
          [⟨1, 0, MealType.lunch, some 10, 4⟩, ⟨2, 1, MealType.lunch, some 10, 0⟩,
            ⟨3, 0, MealType.dinner, some 11, 2⟩, ⟨4, 2, MealType.lunch, some 12, 4⟩]
          ⟨1, 0, MealType.lunch, some 10, 4⟩).takeWhile
          (fun s => s.recipe_id == some 10 && s.servings == 0)).map (fun s => s.id)
    ∧ getLunchBlockSlotIdsToReplace
        [⟨1, 0, MealType.lunch, some 10, 4⟩, ⟨2, 1, MealType.lunch, some 10, 0⟩,
          ⟨3, 0, MealType.dinner, some 11, 2⟩, ⟨4, 2, MealType.lunch, some 12, 4⟩]
        ⟨1, 0, MealType.lunch, some 10, 4⟩ = [1, 2] := by
  constructor
  · exact (C1_replace_updates_exactly_batch
      [⟨1, 0, MealType.lunch, some 10, 4⟩, ⟨2, 1, MealType.lunch, some 10, 0⟩,
        ⟨3, 0, MealType.dinner, some 11, 2⟩, ⟨4, 2, MealType.lunch, some 12, 4⟩]
      ⟨1, 0, MealType.lunch, some 10, 4⟩ 10 7 rfl (by decide) rfl _ _ rfl rfl).1
  · decide

theorem applyRecipeUpdate_invert (slots : List Slot) (ids : List Nat) (A B : Nat)
    (h : ∀ s ∈ slots, s.id ∈ ids → s.recipe_id = some A) :
    applyRecipeUpdate (applyRecipeUpdate slots ids B) ids A = slots := by
  unfold applyRecipeUpdate
  rw [List.map_map]
  conv_rhs => rw [← List.map_id slots]
  apply List.map_congr_left
  intro s hs
  by_cases hc : s.id ∈ ids
  · have hA := h s hs hc
    obtain ⟨sid, sdate, smt, srid, ssv⟩ := s
    simp only at hA hc
    simp [Function.comp_apply, List.elem_iff, hc, hA]
  · obtain ⟨sid, sdate, smt, srid, ssv⟩ := s
    simp only at hc
    simp [Function.comp_apply, List.elem_iff, hc]

theorem mem_block_ids_recipe (slots : List Slot) (target : Slot) (A : Nat)
    (hmem : target ∈ slots) (hnodup : (slots.map (fun s => s.id)).Nodup)
    (hrec : target.recipe_id = some A) :
    ∀ s ∈ slots,
      s.id ∈ (if target.meal_type = MealType.lunch
        then getLunchBlockSlotIdsToReplace slots target else [target.id]) →
      s.recipe_id = some A := by
  intro s hs hsid
  by_cases hml : target.meal_type = MealType.lunch
  · rw [if_pos hml] at hsid
    unfold getLunchBlockSlotIdsToReplace at hsid
    rw [hrec] at hsid
    rcases List.mem_cons.mp hsid with heq | hrun
    · have : s = target := nodup_map_unique (fun s => s.id) hnodup s target hs hmem heq
      exact this ▸ hrec
    · rcases mem_lunchRunIds A _ _ hrun with ⟨t, ht, htid, htrec, _⟩
      have ht1 : t ∈ sortSlotsByDate slots := by
        have hdrop : t ∈ (sortSlotsByDate slots).drop
            ((sortSlotsByDate slots).findIdx (fun s => s.id == target.id) + 1) := ht
        exact List.drop_subset _ _ hdrop
      have ht2 : t ∈ slots := (sortByLe_perm dateLe slots).subset ht1
      have : s = t := nodup_map_unique (fun s => s.id) hnodup s t hs ht2 htid.symm
      exact this ▸ htrec
  · rw [if_neg hml] at hsid
    have heq : s.id = target.id := by simpa using hsid
    have : s = target := nodup_map_unique (fun s => s.id) hnodup s target hs hmem heq
    exact this ▸ hrec

theorem pushUndoAction_of_lt (stack : List UndoAction) (a : UndoAction)
    (h : stack.length < 30) : pushUndoAction stack a = stack ++ [a] := by
  unfold pushUndoAction
  have h0 : (stack ++ [a]).length - 30 = 0 := by
    rw [List.length_append]
    simp only [List.length_cons, List.length_nil]
    omega
  rw [h0]
  exact List.drop_zero _

/-- C5: a successful replacement recording slot ids, old recipe `A` and
new recipe `B`, followed by an undo, restores the plan state exactly: the
undo writes `A` back to precisely the recorded slot ids (the cook slot
with its propagated leftovers), pops that entry, and the state equals the
original. -/
theorem C5_swap_then_undo_restores (st : PlanState) (target : Slot) (A B : Nat)
    (hmem : target ∈ st.slots) (hnodup : (st.slots.map (fun s => s.id)).Nodup)
    (hrec : target.recipe_id = some A) (hserv : target.servings ≠ 0)
    (hstack : st.undoStack.length < 30) :
    ∃ st1, replaceSlotModel st target B = some st1
      ∧ st1.undoStack.getLast? = some (UndoAction.swap
          (if target.meal_type = MealType.lunch
            then getLunchBlockSlotIdsToReplace st.slots target else [target.id]) A B)
      ∧ handleUndoModel st1 = some st := by
  have hpush := pushUndoAction_of_lt st.undoStack
    (UndoAction.swap
      (if target.meal_type = MealType.lunch
        then getLunchBlockSlotIdsToReplace st.slots target else [target.id]) A B) hstack
  refine ⟨{ st with
      slots := applyRecipeUpdate st.slots
        (if target.meal_type = MealType.lunch
          then getLunchBlockSlotIdsToReplace st.slots target else [target.id]) B,
      undoStack := pushUndoAction st.undoStack
        (UndoAction.swap
          (if target.meal_type = MealType.lunch
            then getLunchBlockSlotIdsToReplace st.slots target else [target.id]) A B) },
    ?_, ?_, ?_⟩
  · unfold replaceSlotModel
    rw [hrec]
    simp only [if_neg hserv]
  · simp only [hpush]
    exact List.getLast?_concat _
  · unfold handleUndoModel
    simp only [hpush]
    rw [List.getLast?_concat]
    simp only [List.dropLast_concat]
    rw [applyRecipeUpdate_invert st.slots _ A B
      (mem_block_ids_recipe st.slots target A hmem hnodup hrec)]

/-- Witness for C5: a concrete two-slot lunch batch replaced and undone,
returning the exact original state. -/
theorem C5_witness :
    ∃ st1, replaceSlotModel
        ⟨[⟨1, 0, MealType.lunch, some 10, 4⟩, ⟨2, 1, MealType.lunch, some 10, 0⟩], [5], []⟩
        ⟨1, 0, MealType.lunch, some 10, 4⟩ 7 = some st1
      ∧ st1.undoStack.getLast? = some (UndoAction.swap
          (if (⟨1, 0, MealType.lunch, some 10, 4⟩ : Slot).meal_type = MealType.lunch
            then getLunchBlockSlotIdsToReplace
              [⟨1, 0, MealType.lunch, some 10, 4⟩, ⟨2, 1, MealType.lunch, some 10, 0⟩]
              ⟨1, 0, MealType.lunch, some 10, 4⟩
            else [(⟨1, 0, MealType.lunch, some 10, 4⟩ : Slot).id]) 10 7)
      ∧ handleUndoModel st1 = some
          ⟨[⟨1, 0, MealType.lunch, some 10, 4⟩, ⟨2, 1, MealType.lunch, some 10, 0⟩], [5], []⟩ :=
  C5_swap_then_undo_restores
    ⟨[⟨1, 0, MealType.lunch, some 10, 4⟩, ⟨2, 1, MealType.lunch, some 10, 0⟩], [5], []⟩
    ⟨1, 0, MealType.lunch, some 10, 4⟩ 10 7 (by decide) (by decide) rfl (by decide) (by decide)

/-! ## Generation-loop infrastructure for C2 and C7 -/

theorem Queues.get_set_same (qs : Queues) (m : MealType) (q : List UseEntry) :
    (qs.set m q).get m = q := by
  cases m <;> rfl

theorem Queues.get_set_ne (qs : Queues) (m m' : MealType) (q : List UseEntry) (h : m' ≠ m) :
    (qs.set m q).get m' = qs.get m' := by
  cases m <;> cases m' <;> first | rfl | exact absurd rfl h

theorem Queues.get_empty (m : MealType) : (⟨[], [], []⟩ : Queues).get m = [] := by
  cases m <;> rfl

theorem pickStep_fst (env : Env) (cfg : GenCfg) (m : MealType) (day : Nat) (st : FillState) :
    (pickStep env cfg m day st).1
      = pickRecipe env m st.usedGlobal
          (if 0 < cfg.cd
            then queueToSet (pruneQueue (st.queues.get m) (day : Int) cfg.cd) else [])
          (env.rnd st.rndIdx) := by
  unfold pickStep
  dsimp only
  split <;> simp_all

theorem pickStep_snd_queues_same (env : Env) (cfg : GenCfg) (m : MealType) (day : Nat)
    (st : FillState) :
    ((pickStep env cfg m day st).2).queues.get m
      = pruneQueue (st.queues.get m) (day : Int) cfg.cd
        ++ (match (pickStep env cfg m day st).1 with
            | some r => [⟨(day : Int), r⟩]
            | none => []) := by
  unfold pickStep
  dsimp only
  split <;> simp_all [Queues.get_set_same]

theorem pickStep_snd_queues_ne (env : Env) (cfg : GenCfg) (m : MealType) (day : Nat)
    (st : FillState) (m' : MealType) (h : m' ≠ m) :
    ((pickStep env cfg m day st).2).queues.get m' = st.queues.get m' := by
  unfold pickStep
  dsimp only
  split <;> simp_all [Queues.get_set_ne _ _ _ _ h]

theorem pickStep_snd_newSlots (env : Env) (cfg : GenCfg) (m : MealType) (day : Nat)
    (st : FillState) :
    ((pickStep env cfg m day st).2).newSlots = st.newSlots := by
  unfold pickStep
  dsimp only
  split <;> rfl

theorem bStep_queues_ne (env : Env) (cfg : GenCfg) (day : Nat) (st : FillState)
    (m' : MealType) (h : m' ≠ MealType.breakfast) :
    (bStep env cfg day st).queues.get m' = st.queues.get m' := by
  have h2 := pickStep_snd_queues_ne env cfg MealType.breakfast day st m' h
  rcases hps : pickStep env cfg MealType.breakfast day st with ⟨rid, st'⟩
  rw [hps] at h2
  unfold bStep
  simp only [hps]
  simpa using h2

theorem dStep_queues_ne (env : Env) (cfg : GenCfg) (day : Nat) (st : FillState)
    (m' : MealType) (h : m' ≠ MealType.dinner) :
    (dStep env cfg day st).queues.get m' = st.queues.get m' := by
  have h2 := pickStep_snd_queues_ne env cfg MealType.dinner day st m' h
  rcases hps : pickStep env cfg MealType.dinner day st with ⟨rid, st'⟩
  rw [hps] at h2
  unfold dStep
  simp only [hps]
  simpa using h2

theorem lStep_queues_ne (env : Env) (cfg : GenCfg) (day : Nat) (st : FillState)
    (m' : MealType) (h : m' ≠ MealType.lunch) :
    (lStep env cfg day st).queues.get m' = st.queues.get m' := by
  unfold lStep
  split
  · have h2 := pickStep_snd_queues_ne env cfg MealType.lunch day st m' h
    rcases hps : pickStep env cfg MealType.lunch day st with ⟨rid, st'⟩
    rw [hps] at h2
    simp only [hps]
    simpa using h2
  · split
    · have h2 := pickStep_snd_queues_ne env cfg MealType.lunch day st m' h
      rcases hps : pickStep env cfg MealType.lunch day st with ⟨rid, st'⟩
      rw [hps] at h2
      simp only [hps]
      simpa using h2
    · rfl

theorem midState_queues (env : Env) (cfg : GenCfg) (day : Nat) (st : FillState) (m : MealType) :
    (midState env cfg day st m).queues.get m = st.queues.get m := by
  cases m
  · rfl
  · exact bStep_queues_ne env cfg day st MealType.lunch (by decide)
  · rw [midState]
    rw [lStep_queues_ne env cfg day _ MealType.dinner (by decide)]
    exact bStep_queues_ne env cfg day st MealType.dinner (by decide)

theorem bStep_queues_same (env : Env) (cfg : GenCfg) (day : Nat) (st : FillState) :
    (bStep env cfg day st).queues.get MealType.breakfast
      = ((pickStep env cfg MealType.breakfast day st).2).queues.get MealType.breakfast := by
  rcases hps : pickStep env cfg MealType.breakfast day st with ⟨rid, st'⟩
  unfold bStep
  simp only [hps]

theorem dStep_queues_same (env : Env) (cfg : GenCfg) (day : Nat) (st : FillState) :
    (dStep env cfg day st).queues.get MealType.dinner
      = ((pickStep env cfg MealType.dinner day st).2).queues.get MealType.dinner := by
  rcases hps : pickStep env cfg MealType.dinner day st with ⟨rid, st'⟩
  unfold dStep
  simp only [hps]

theorem dayStep_queues_cases (env : Env) (cfg : GenCfg) (day : Nat) (st : FillState)
    (m : MealType) :
    (dayStep env cfg day st).queues.get m = st.queues.get m
    ∨ (dayStep env cfg day st).queues.get m
        = pruneQueue (st.queues.get m) (day : Int) cfg.cd
          ++ (match (pickStep env cfg m day (midState env cfg day st m)).1 with
              | some r => [⟨(day : Int), r⟩]
              | none => []) := by
  cases m
  case breakfast =>
    right
    unfold dayStep
    rw [dStep_queues_ne env cfg day _ MealType.breakfast (by decide)]
    rw [lStep_queues_ne env cfg day _ MealType.breakfast (by decide)]
    rw [bStep_queues_same]
    exact pickStep_snd_queues_same env cfg MealType.breakfast day st
  case lunch =>
    unfold dayStep
    rw [dStep_queues_ne env cfg day _ MealType.lunch (by decide)]
    unfold lStep
    split
    · right
      simp only [midState]
      rcases hps : pickStep env cfg MealType.lunch day (bStep env cfg day st) with ⟨rid, st'⟩
      have h2 := pickStep_snd_queues_same env cfg MealType.lunch day (bStep env cfg day st)
      rw [hps] at h2
      rw [bStep_queues_ne env cfg day st MealType.lunch (by decide)] at h2
      simp only [hps]
      simpa using h2
    · split
      · right
        simp only [midState]
        rcases hps : pickStep env cfg MealType.lunch day (bStep env cfg day st) with ⟨rid, st'⟩
        have h2 := pickStep_snd_queues_same env cfg MealType.lunch day (bStep env cfg day st)
        rw [hps] at h2
        rw [bStep_queues_ne env cfg day st MealType.lunch (by decide)] at h2
        simp only [hps]
        simpa using h2
      · left
        exact bStep_queues_ne env cfg day st MealType.lunch (by decide)
  case dinner =>
    right
    unfold dayStep
    rw [dStep_queues_same]
    have h2 := pickStep_snd_queues_same env cfg MealType.dinner day
      (lStep env cfg day (bStep env cfg day st))
    rw [lStep_queues_ne env cfg day _ MealType.dinner (by decide)] at h2
    rw [bStep_queues_ne env cfg day st MealType.dinner (by decide)] at h2
    exact h2

theorem mem_pruneQueue_of_mem (q : List UseEntry) (d : Int) (cd : Nat) (e : UseEntry)
    (he : e ∈ q) (hcond : e.dayIndex > d - (cd : Int)) :
    e ∈ pruneQueue q d cd := by
  unfold pruneQueue
  split
  · exact he
  · exact List.mem_filter.mpr ⟨he, by simpa using hcond⟩

theorem mem_of_mem_pruneQueue (q : List UseEntry) (d : Int) (cd : Nat) (e : UseEntry)
    (he : e ∈ pruneQueue q d cd) : e ∈ q := by
  unfold pruneQueue at he
  split at he
  · exact he
  · exact List.mem_of_mem_filter he

theorem pruneQueue_cond_of_mem (q : List UseEntry) (d : Int) (cd : Nat) (e : UseEntry)
    (hcd : cd ≠ 0) (he : e ∈ pruneQueue q d cd) : e.dayIndex > d - (cd : Int) := by
  unfold pruneQueue at he
  rw [if_neg hcd] at he
  simpa using (List.mem_filter.mp he).2

theorem dayStep_queue_mem_forward (env : Env) (cfg : GenCfg) (day : Nat) (st : FillState)
    (m : MealType) (e : UseEntry)
    (he : e ∈ pruneQueue (st.queues.get m) (day : Int) cfg.cd) :
    e ∈ (dayStep env cfg day st).queues.get m := by
  rcases dayStep_queues_cases env cfg day st m with h | h
  · rw [h]
    exact mem_of_mem_pruneQueue _ _ _ _ he
  · rw [h]
    exact List.mem_append_left _ he

theorem dayStep_queue_mem_backward (env : Env) (cfg : GenCfg) (day : Nat) (st : FillState)
    (m : MealType) (e : UseEntry)
    (he : e ∈ (dayStep env cfg day st).queues.get m) :
    e ∈ st.queues.get m
    ∨ (e.dayIndex = (day : Int)
        ∧ some e.recipeId = (pickStep env cfg m day (midState env cfg day st m)).1) := by
  rcases dayStep_queues_cases env cfg day st m with h | h
  · rw [h] at he
    exact Or.inl he
  · rw [h] at he
    rcases List.mem_append.mp he with he' | he'
    · exact Or.inl (mem_of_mem_pruneQueue _ _ _ _ he')
    · rcases hps : (pickStep env cfg m day (midState env cfg day st m)).1 with _ | r
      · rw [hps] at he'
        cases he'
      · rw [hps] at he'
        rcases List.mem_singleton.mp he' with rfl
        exact Or.inr ⟨rfl, rfl⟩

theorem stateAt_succ (env : Env) (cfg : GenCfg) (hist : List SlotHistoryRow) (d : Nat) :
    stateAt env cfg hist (d + 1) = dayStep env cfg d (stateAt env cfg hist d) := by
  unfold stateAt
  rw [List.range_succ, List.foldl_append]
  rfl

/-! ## C7: history seeding and the cooldown window -/

theorem preState_queues (env : Env) (cfg : GenCfg) (hist : List SlotHistoryRow)
    (m : MealType) (d : Nat) :
    (preState env cfg hist m d).queues.get m = (stateAt env cfg hist d).queues.get m :=
  midState_queues env cfg d (stateAt env cfg hist d) m

theorem pickAt_eq_pickStep_mid (env : Env) (cfg : GenCfg) (hist : List SlotHistoryRow)
    (m : MealType) (d : Nat) :
    pickAt env cfg hist m d
      = (pickStep env cfg m d (midState env cfg d (stateAt env cfg hist d) m)).1 := rfl

theorem seedQueues_single (cfg : GenCfg) (m : MealType) (X s h : Nat)
    (hcd : cfg.cd ≠ 0) (hh0 : 0 < h) (hhD : h ≤ cfg.cd) (hs : 0 < s) :
    (seedQueues cfg [⟨cfg.startDate - (h : Int), m, X, s⟩]).get m
      = [⟨-(h : Int), X⟩] := by
  unfold seedQueues
  rw [if_neg hcd]
  simp only [List.foldl_cons, List.foldl_nil]
  rw [if_pos (by refine ⟨?_, ?_, hs⟩ <;> omega)]
  rw [if_neg (by omega)]
  rw [Queues.get_set_same]
  rw [Queues.get_empty]
  have hd : cfg.startDate - (cfg.startDate - (h : Int)) = (h : Int) := by omega
  rw [hd]
  rfl

theorem seed_entry_mem (env : Env) (cfg : GenCfg) (m : MealType) (X s h : Nat)
    (hcd : cfg.cd ≠ 0) (hh0 : 0 < h) (hhD : h ≤ cfg.cd) (hs : 0 < s) :
    ∀ d : Nat, d ≤ cfg.cd - h →
      (⟨-(h : Int), X⟩ : UseEntry)
        ∈ (stateAt env cfg [⟨cfg.startDate - (h : Int), m, X, s⟩] d).queues.get m
  | 0, _ => by
    show _ ∈ (seedQueues cfg [⟨cfg.startDate - (h : Int), m, X, s⟩]).get m
    rw [seedQueues_single cfg m X s h hcd hh0 hhD hs]
    exact List.mem_singleton.mpr rfl
  | d + 1, hd => by
    have ih := seed_entry_mem env cfg m X s h hcd hh0 hhD hs d (by omega)
    rw [stateAt_succ]
    apply dayStep_queue_mem_forward
    apply mem_pruneQueue_of_mem _ _ _ _ ih
    simp only []
    omega

theorem noX_entry (env : Env) (cfg : GenCfg) (m : MealType) (X s h : Nat)
    (hcd : cfg.cd ≠ 0) (hh0 : 0 < h) (hhD : h ≤ cfg.cd) (hs : 0 < s) (N : Nat)
    (hNoPick : ∀ d' : Nat, d' < N →
      pickAt env cfg [⟨cfg.startDate - (h : Int), m, X, s⟩] m d' ≠ some X) :
    ∀ d : Nat, d ≤ N →
      ∀ e ∈ (stateAt env cfg [⟨cfg.startDate - (h : Int), m, X, s⟩] d).queues.get m,
        e.recipeId = X → e.dayIndex = -(h : Int)
  | 0, _, e, he, heX => by
    rw [show (stateAt env cfg [⟨cfg.startDate - (h : Int), m, X, s⟩] 0).queues.get m
        = (seedQueues cfg [⟨cfg.startDate - (h : Int), m, X, s⟩]).get m from rfl,
      seedQueues_single cfg m X s h hcd hh0 hhD hs] at he
    rcases List.mem_singleton.mp he with rfl
    rfl
  | d + 1, hd, e, he, heX => by
    rw [stateAt_succ] at he
    rcases dayStep_queue_mem_backward env cfg d _ m e he with he' | ⟨_, hpick⟩
    · exact noX_entry env cfg m X s h hcd hh0 hhD hs N hNoPick d (by omega) e he' heX
    · rw [← pickAt_eq_pickStep_mid] at hpick
      rw [heX] at hpick
      exact absurd hpick.symm (hNoPick d (by omega))

/-- C7: a persisted cook slot of meal type `m` eaten `h` days before the
start of a plan with `cooldownDays = D` (`0 < h ≤ D`) is seeded into `m`'s
cooldown queue at `dayIndex = −h`; during generation its recipe is in the
cooldown exclusion set handed to the picker for meal `m` on every day
index `< D − h`, and — as long as the fill has not re-picked that recipe —
it is excluded exactly on day indices `0 … D−h−1`, becoming eligible again
from day `D − h` on.  The last conjunct ties the exclusion set to the pick
the generation loop performs. -/
theorem C7_history_cooldown_window (env : Env) (cfg : GenCfg) (m : MealType) (X s h : Nat)
    (hcd : 0 < cfg.cd) (hh0 : 0 < h) (hhD : h ≤ cfg.cd) (hs : 0 < s) :
    ((⟨-(h : Int), X⟩ : UseEntry)
        ∈ (seedQueues cfg [⟨cfg.startDate - (h : Int), m, X, s⟩]).get m)
    ∧ (∀ day : Nat, day < cfg.cd - h →
        X ∈ exclAt env cfg [⟨cfg.startDate - (h : Int), m, X, s⟩] m day)
    ∧ (∀ day : Nat,
        (∀ d' : Nat, d' < day →
          pickAt env cfg [⟨cfg.startDate - (h : Int), m, X, s⟩] m d' ≠ some X) →
        (X ∈ exclAt env cfg [⟨cfg.startDate - (h : Int), m, X, s⟩] m day
          ↔ day < cfg.cd - h))
    ∧ (∀ day : Nat,
        pickAt env cfg [⟨cfg.startDate - (h : Int), m, X, s⟩] m day
          = pickRecipe env m
              ((preState env cfg [⟨cfg.startDate - (h : Int), m, X, s⟩] m day).usedGlobal)
              (exclAt env cfg [⟨cfg.startDate - (h : Int), m, X, s⟩] m day)
              (env.rnd ((preState env cfg [⟨cfg.startDate - (h : Int), m, X, s⟩] m
                day).rndIdx))) := by
  have hcd' : cfg.cd ≠ 0 := Nat.pos_iff_ne_zero.mp hcd
  refine ⟨?_, ?_, ?_, ?_⟩
  · rw [seedQueues_single cfg m X s h hcd' hh0 hhD hs]
    exact List.mem_singleton.mpr rfl
  · intro day hday
    unfold exclAt
    rw [if_pos hcd]
    rw [preState_queues]
    unfold queueToSet
    refine List.mem_map.mpr ⟨⟨-(h : Int), X⟩, ?_, rfl⟩
    apply mem_pruneQueue_of_mem
    · exact seed_entry_mem env cfg m X s h hcd' hh0 hhD hs day (by omega)
    · simp only []
      omega
  · intro day hNoPick
    constructor
    · intro hmem
      by_contra hge
      unfold exclAt at hmem
      rw [if_pos hcd, preState_queues] at hmem
      unfold queueToSet at hmem
      rcases List.mem_map.mp hmem with ⟨e, he, heX⟩
      have hq := mem_of_mem_pruneQueue _ _ _ _ he
      have hidx := noX_entry env cfg m X s h hcd' hh0 hhD hs day hNoPick day (le_refl day)
        e hq heX
      have hcond := pruneQueue_cond_of_mem _ _ _ _ hcd' he
      rw [hidx] at hcond
      omega
    · intro hday
      unfold exclAt
      rw [if_pos hcd, preState_queues]
      unfold queueToSet
      refine List.mem_map.mpr ⟨⟨-(h : Int), X⟩, ?_, rfl⟩
      apply mem_pruneQueue_of_mem
      · exact seed_entry_mem env cfg m X s h hcd' hh0 hhD hs day (by omega)
      · simp only []
        omega
  · intro day
    rw [pickAt_eq_pickStep_mid, pickStep_fst]
    unfold exclAt preState
    rfl

/-- Witness for C7: a three-dinner-recipe catalog, `cooldownDays = 14`,
history recipe `3` eaten 12 days before start — excluded on day 1, and
excluded on day 2 exactly when `2 < 14 − 12` (it is not). -/
theorem C7_witness :
    3 ∈ exclAt ⟨[⟨1, "a", MealType.dinner⟩, ⟨2, "b", MealType.dinner⟩,
        ⟨3, "c", MealType.dinner⟩], [], [], [], [], [], false, false,
        fun _ _ => true, fun _ => 0⟩ ⟨0, 14, 2, 1, 14⟩
        [⟨(0 : Int) - ((12 : Nat) : Int), MealType.dinner, 3, 2⟩] MealType.dinner 1
    ∧ (3 ∈ exclAt ⟨[⟨1, "a", MealType.dinner⟩, ⟨2, "b", MealType.dinner⟩,
        ⟨3, "c", MealType.dinner⟩], [], [], [], [], [], false, false,
        fun _ _ => true, fun _ => 0⟩ ⟨0, 14, 2, 1, 14⟩
        [⟨(0 : Int) - ((12 : Nat) : Int), MealType.dinner, 3, 2⟩] MealType.dinner 2
      ↔ 2 < 14 - 12) := by
  have hthm := C7_history_cooldown_window ⟨[⟨1, "a", MealType.dinner⟩,
    ⟨2, "b", MealType.dinner⟩, ⟨3, "c", MealType.dinner⟩], [], [], [], [], [], false, false,
    fun _ _ => true, fun _ => 0⟩ ⟨0, 14, 2, 1, 14⟩ MealType.dinner 3 2 12
    (by decide) (by decide) (by decide) (by decide)
  exact ⟨hthm.2.1 1 (by decide), hthm.2.2.1 2 (by decide)⟩

/-! ## C2: lunch batching during generation -/

theorem bStep_newSlots (env : Env) (cfg : GenCfg) (day : Nat) (st : FillState) :
    (bStep env cfg day st).newSlots
      = st.newSlots ++ [⟨mkDate cfg day, MealType.breakfast,
          (pickStep env cfg MealType.breakfast day st).1, cfg.peopleValue⟩] := by
  have hn := pickStep_snd_newSlots env cfg MealType.breakfast day st
  rcases hps : pickStep env cfg MealType.breakfast day st with ⟨rid, st'⟩
  rw [hps] at hn
  unfold bStep
  simp only [hps]
  simpa using hn

theorem dStep_newSlots (env : Env) (cfg : GenCfg) (day : Nat) (st : FillState) :
    (dStep env cfg day st).newSlots
      = st.newSlots ++ [⟨mkDate cfg day, MealType.dinner,
          (pickStep env cfg MealType.dinner day st).1, cfg.peopleValue⟩] := by
  have hn := pickStep_snd_newSlots env cfg MealType.dinner day st
  rcases hps : pickStep env cfg MealType.dinner day st with ⟨rid, st'⟩
  rw [hps] at hn
  unfold dStep
  simp only [hps]
  simpa using hn

theorem lStep_newSlots_cook (env : Env) (cfg : GenCfg) (day : Nat) (st : FillState)
    (hspan : ¬ cfg.lunchSpanValue ≤ 1) (hcook : day % cfg.lunchSpanValue = 0) :
    (lStep env cfg day st).newSlots
      = st.newSlots
        ++ [⟨mkDate cfg day, MealType.lunch, (pickStep env cfg MealType.lunch day st).1,
              cfg.peopleValue * cfg.lunchSpanValue⟩]
        ++ ((List.range' 1 (cfg.lunchSpanValue - 1)).takeWhile
              (fun k => day + k < cfg.daysValue)).map
            (fun k => (⟨mkDate cfg (day + k), MealType.lunch,
              (pickStep env cfg MealType.lunch day st).1, 0⟩ : NewSlot)) := by
  have hn := pickStep_snd_newSlots env cfg MealType.lunch day st
  rcases hps : pickStep env cfg MealType.lunch day st with ⟨rid, st'⟩
  rw [hps] at hn
  unfold lStep
  rw [if_neg hspan, if_pos hcook]
  simp only [hps]
  simp only at hn
  rw [hn]

theorem lStep_newSlots_skip (env : Env) (cfg : GenCfg) (day : Nat) (st : FillState)
    (hspan : ¬ cfg.lunchSpanValue ≤ 1) (hcook : ¬ day % cfg.lunchSpanValue = 0) :
    (lStep env cfg day st).newSlots = st.newSlots := by
  unfold lStep
  rw [if_neg hspan, if_neg hcook]

theorem filter_comp_const_true {α β : Type} (f : α → β) (p : β → Bool) (l : List α)
    (h : ∀ x : α, p (f x) = true) : l.filter (p ∘ f) = l :=
  List.filter_eq_self.mpr (fun x _ => h x)

theorem dayStep_newSlots_filter_lunch (env : Env) (cfg : GenCfg) (day : Nat) (st : FillState)
    (hspan : 1 < cfg.lunchSpanValue) :
    (dayStep env cfg day st).newSlots.filter (fun sl => sl.meal_type == MealType.lunch)
      = st.newSlots.filter (fun sl => sl.meal_type == MealType.lunch)
        ++ (if day % cfg.lunchSpanValue = 0 then
            (⟨mkDate cfg day, MealType.lunch,
                (pickStep env cfg MealType.lunch day (bStep env cfg day st)).1,
                cfg.peopleValue * cfg.lunchSpanValue⟩ : NewSlot)
              :: ((List.range' 1 (cfg.lunchSpanValue - 1)).takeWhile
                    (fun k => day + k < cfg.daysValue)).map
                  (fun k => (⟨mkDate cfg (day + k), MealType.lunch,
                    (pickStep env cfg MealType.lunch day (bStep env cfg day st)).1, 0⟩
                    : NewSlot))
          else []) := by
  have hspan' : ¬ cfg.lunchSpanValue ≤ 1 := by omega
  unfold dayStep
  rw [dStep_newSlots]
  by_cases hcook : day % cfg.lunchSpanValue = 0
  · rw [lStep_newSlots_cook env cfg day _ hspan' hcook]
    rw [bStep_newSlots]
    rw [if_pos hcook]
    simp [List.filter_append, List.filter_map]
    rw [filter_comp_const_true _ _ _ (fun x => rfl)]
  · rw [lStep_newSlots_skip env cfg day _ hspan' hcook]
    rw [bStep_newSlots]
    rw [if_neg hcook]
    simp [List.filter_append]

theorem stateAt_newSlots_filter_lunch (env : Env) (cfg : GenCfg) (hist : List SlotHistoryRow)
    (hspan : 1 < cfg.lunchSpanValue) :
    ∀ d : Nat,
      (stateAt env cfg hist d).newSlots.filter (fun sl => sl.meal_type == MealType.lunch)
        = ((List.range d).filter (fun x => x % cfg.lunchSpanValue == 0)).flatMap
            (lunchBlockFor env cfg hist)
  | 0 => rfl
  | d + 1 => by
    rw [stateAt_succ]
    rw [dayStep_newSlots_filter_lunch env cfg d _ hspan]
    rw [stateAt_newSlots_filter_lunch env cfg hist hspan d]
    rw [List.range_succ, List.filter_append, List.flatMap_append]
    congr 1
    by_cases hcook : d % cfg.lunchSpanValue = 0
    · rw [if_pos hcook]
      have hfilter : List.filter (fun x => x % cfg.lunchSpanValue == 0) [d] = [d] := by
        simp [hcook]
      rw [hfilter]
      simp only [List.flatMap_cons, List.flatMap_nil, List.append_nil]
      rfl
    · rw [if_neg hcook]
      have hfilter : List.filter (fun x => x % cfg.lunchSpanValue == 0) [d] = [] := by
        simp [hcook]
      rw [hfilter]
      rfl

/-- C2: for every generated plan with lunch span `N > 1`, the lunch slots
of the produced schedule are exactly: for each day index `d` with
`d % N == 0`, one cook slot dated day `d` with
`servings = peopleValue × N` carrying the recipe picked for that day,
followed by one leftover slot with `servings = 0` and the same recipe on
each day `d + k` (`k = 1 … N−1`) that falls inside the plan — and no other
lunch slot exists. -/
theorem C2_lunch_batching (env : Env) (cfg : GenCfg) (hist : List SlotHistoryRow)
    (hspan : 1 < cfg.lunchSpanValue) :
    (createPlanSlots env cfg hist).filter (fun sl => sl.meal_type == MealType.lunch)
      = ((List.range cfg.daysValue).filter (fun d => d % cfg.lunchSpanValue == 0)).flatMap
          (lunchBlockFor env cfg hist) :=
  stateAt_newSlots_filter_lunch env cfg hist hspan cfg.daysValue

/-- Witness for C2: the spec's scenario — `days = 3`, `people = 2`,
`lunchSpanDays = 2`, `cooldownDays = 0`, three breakfast and two lunch
recipes — yields lunch slots `servings 4 / 0 / 4`, with day 1 sharing
day 0's recipe. -/
theorem C2_witness :
    (createPlanSlots ⟨[⟨1, "b1", MealType.breakfast⟩, ⟨2, "b2", MealType.breakfast⟩,
          ⟨3, "b3", MealType.breakfast⟩, ⟨4, "l1", MealType.lunch⟩,
          ⟨5, "l2", MealType.lunch⟩, ⟨6, "d1", MealType.dinner⟩], [], [], [], [], [],
          false, false, fun _ _ => true, fun _ => 0⟩ ⟨0, 3, 2, 2, 0⟩ []).filter
        (fun sl => sl.meal_type == MealType.lunch)
      = ((List.range 3).filter (fun d => d % 2 == 0)).flatMap
          (lunchBlockFor ⟨[⟨1, "b1", MealType.breakfast⟩, ⟨2, "b2", MealType.breakfast⟩,
            ⟨3, "b3", MealType.breakfast⟩, ⟨4, "l1", MealType.lunch⟩,
            ⟨5, "l2", MealType.lunch⟩, ⟨6, "d1", MealType.dinner⟩], [], [], [], [], [],
            false, false, fun _ _ => true, fun _ => 0⟩ ⟨0, 3, 2, 2, 0⟩ [])
    ∧ (createPlanSlots ⟨[⟨1, "b1", MealType.breakfast⟩, ⟨2, "b2", MealType.breakfast⟩,
          ⟨3, "b3", MealType.breakfast⟩, ⟨4, "l1", MealType.lunch⟩,
          ⟨5, "l2", MealType.lunch⟩, ⟨6, "d1", MealType.dinner⟩], [], [], [], [], [],
          false, false, fun _ _ => true, fun _ => 0⟩ ⟨0, 3, 2, 2, 0⟩ []).filter
        (fun sl => sl.meal_type == MealType.lunch)
      = [⟨0, MealType.lunch, some 4, 4⟩, ⟨1, MealType.lunch, some 4, 0⟩,
          ⟨2, MealType.lunch, some 5, 4⟩] := by
  constructor
  · exact C2_lunch_batching ⟨[⟨1, "b1", MealType.breakfast⟩, ⟨2, "b2", MealType.breakfast⟩,
      ⟨3, "b3", MealType.breakfast⟩, ⟨4, "l1", MealType.lunch⟩,
      ⟨5, "l2", MealType.lunch⟩, ⟨6, "d1", MealType.dinner⟩], [], [], [], [], [],
      false, false, fun _ _ => true, fun _ => 0⟩ ⟨0, 3, 2, 2, 0⟩ [] (by decide)
  · decide
